import Mathlib

/-!
Formal model of the `update-chart-dependency` GitHub Action
(`actions/update-chart-dependency/main.ts`) of the
MapColonies/javascript-github-actions repository.

The TypeScript source is embedded shallowly:
  * Parsed YAML values are the inductive `Yaml`; JavaScript property access,
    including the fact that reading a property of `null` throws a
    `TypeError`, is `jsGet` (returning `Except Unit`).
  * The external `yaml` library (parse / stringify) is modelled from the
    spec: a document text is identified with its parse result, so `YamlText`
    is `Option Yaml` (`none` = unparseable text) and `yamlParse` /
    `yamlStringify` are the evident maps.  The spec states that
    serialization preserves the document structure, which this model bakes
    in as the round trip being the identity.
  * The filesystem and the remote GitHub API are oracles (`FS`, `Remote`);
    `run` returns an `Outcome` recording the log lines and every remote API
    call attempted, in order.
-/

/-- A parsed YAML value, as seen by the JavaScript runtime: `null`, a string
scalar, a non-string scalar (number / boolean, carried as its lexeme), a
sequence, or a mapping (an ordered association list, as JS object keys are
ordered). -/
inductive Yaml where
  | null : Yaml
  | str (s : String) : Yaml
  | num (s : String) : Yaml
  | list (xs : List Yaml) : Yaml
  | map (kvs : List (String × Yaml)) : Yaml

/-- Whether a value is the YAML/JS `null`. -/
def Yaml.isNull : Yaml → Bool
  | .null => true
  | _ => false

/-- Modelled from the spec: a document text of the external `yaml` library,
identified with its parse result (`none` when the text does not parse). -/
abbrev YamlText := Option Yaml

/-- Modelled from the spec: `yaml.parse`, total on the `YamlText` model;
the try/catch around the real call corresponds to the `none` case. -/
def yamlParse (t : YamlText) : Option Yaml := t

/-- Modelled from the spec: `yaml.stringify`; serialization preserves the
document structure (map key order included), so it is the section of
`yamlParse`.  The real `yaml.stringify` never returns an empty string. -/
def yamlStringify (v : Yaml) : YamlText := some v

/-- First-match lookup in an ordered association list (JS object key read). -/
def lookupKV : List (String × Yaml) → String → Option Yaml
  | [], _ => none
  | (k', v) :: rest, k => if k' == k then some v else lookupKV rest k

/-- JS property assignment on an ordered association list: overwrites the
first occurrence of the key in place (JS keeps the key position), appends
when absent. -/
def setKV : List (String × Yaml) → String → Yaml → List (String × Yaml)
  | [], k, v => [(k, v)]
  | (k', v') :: rest, k, v =>
    if k' == k then (k, v) :: rest else (k', v') :: setKV rest k v

/-- JS property read `v[k]`: throws a `TypeError` on a `null` base (the
`.error` case), looks the key up on objects, and yields `undefined`
(here `none`) on every other value. -/
def jsGet : Yaml → String → Except Unit (Option Yaml)
  | .null, _ => .error ()
  | .map kvs, k => .ok (lookupKV kvs k)
  | _, _ => .ok none

/-- JS property write `v[k] = x` for object bases; in the embedded code it
is only ever reached on mappings. -/
def jsSet : Yaml → String → Yaml → Yaml
  | .map kvs, k, x => .map (setKV kvs k x)
  | v, _, _ => v

/-- `UpdateResult` of main.ts: result of patching one descriptor file. -/
structure UpdateResult where
  updated : Bool
  oldVersion : Option String := none
  newVersion : Option String := none
  newContent : Option YamlText := none

/-- The `for (const dep of chart.dependencies)` loop of
`updateChartYamlDependency` (main.ts lines 121-129).  Visits every entry in
order; reading `dep.name` throws on a `null` entry (propagated as
`.error`); an entry whose `name` and `version` are both strings, with the
name equal to the target and the version different, gets its `version`
overwritten; `oldVersion` is overwritten at each match, so the returned one
is the last match's previous version. -/
def updateEntries : List Yaml → String → String → Except Unit (List Yaml × Bool × Option String)
  | [], _, _ => .ok ([], false, none)
  | dep :: rest, name, version =>
    match jsGet dep "name" with
    | .error e => .error e
    | .ok nameV =>
      match jsGet dep "version" with
      | .error e => .error e
      | .ok verV =>
        match nameV with
        | some (.str n0) =>
          match verV with
          | some (.str v0) =>
            if n0 == name && v0 != version then
              match updateEntries rest name version with
              | .error e => .error e
              | .ok (rest', _, oldR) =>
                .ok (jsSet dep "version" (.str version) :: rest', true, some (oldR.getD v0))
            else
              match updateEntries rest name version with
              | .error e => .error e
              | .ok (rest', updR, oldR) => .ok (dep :: rest', updR, oldR)
          | _ =>
            match updateEntries rest name version with
            | .error e => .error e
            | .ok (rest', updR, oldR) => .ok (dep :: rest', updR, oldR)
        | _ =>
          match updateEntries rest name version with
          | .error e => .error e
          | .ok (rest', updR, oldR) => .ok (dep :: rest', updR, oldR)

/-- `updateChartYamlDependency` of main.ts (lines 111-135).  Parse failure
returns `{updated := false}`; reading `chart.dependencies` throws when the
document parses to `null`; a non-array `dependencies` value is a no-op;
otherwise the entry loop runs and, only when something changed, the mutated
document is re-serialized. -/
def updateChartYamlDependency (fileContent : YamlText) (dependencyName version : String) :
    Except Unit UpdateResult :=
  match yamlParse fileContent with
  | none => .ok { updated := false }
  | some chart =>
    match jsGet chart "dependencies" with
    | .error e => .error e
    | .ok depsV =>
      match depsV with
      | some (.list deps) =>
        match updateEntries deps dependencyName version with
        | .error e => .error e
        | .ok (deps', upd, oldV) =>
          if upd then
            .ok { updated := true, oldVersion := oldV, newVersion := some version,
                  newContent := some (yamlStringify (jsSet chart "dependencies" (.list deps'))) }
          else .ok { updated := false }
      | _ => .ok { updated := false }

/-- The `for (const rel of releases)` loop of `updateHelmfileReleaseVersion`
(main.ts lines 155-170).  Unlike the chart loop it guards
`typeof rel === "object" && rel !== null` before any property read, so it
never throws; otherwise the same match-and-overwrite logic. -/
def updateReleases : List Yaml → String → String → List Yaml × Bool × Option String
  | [], _, _ => ([], false, none)
  | rel :: rest, name, version =>
    let (rest', updR, oldR) := updateReleases rest name version
    match rel with
    | .map kvs =>
      match lookupKV kvs "name" with
      | some (.str n0) =>
        match lookupKV kvs "version" with
        | some (.str v0) =>
          if n0 == name && v0 != version then
            (.map (setKV kvs "version" (.str version)) :: rest', true, some (oldR.getD v0))
          else (rel :: rest', updR, oldR)
        | _ => (rel :: rest', updR, oldR)
      | _ => (rel :: rest', updR, oldR)
    | _ => (rel :: rest', updR, oldR)

/-- `updateHelmfileReleaseVersion` of main.ts (lines 144-177).  The guard
`typeof helmfile === "object" && helmfile !== null && "releases" in helmfile
&& Array.isArray(releases)` means the release loop only runs on a mapping
whose `releases` key holds a sequence; everything else is a no-op, and the
function never throws. -/
def updateHelmfileReleaseVersion (fileContent : YamlText) (releaseName version : String) :
    UpdateResult :=
  match yamlParse fileContent with
  | none => { updated := false }
  | some helmfile =>
    match helmfile with
    | .map kvs =>
      match lookupKV kvs "releases" with
      | some (.list rels) =>
        let (rels', upd, oldV) := updateReleases rels releaseName version
        if upd then
          { updated := true, oldVersion := oldV, newVersion := some version,
            newContent := some (yamlStringify (.map (setKV kvs "releases" (.list rels')))) }
        else { updated := false }
      | _ => { updated := false }
    | _ => { updated := false }

example :
    updateChartYamlDependency
      (some (.map [("dependencies",
        .list [.map [("name", .str "db"), ("version", .str "1.0.0")]])])) "db" "1.1.0" =
    .ok { updated := true, oldVersion := some "1.0.0", newVersion := some "1.1.0",
          newContent := some (some (.map [("dependencies",
            .list [.map [("name", .str "db"), ("version", .str "1.1.0")]])])) } := rfl

example :
    updateChartYamlDependency
      (some (.map [("dependencies", .list [.null])])) "db" "1.1.0" = .error () := rfl

example :
    updateHelmfileReleaseVersion
      (some (.map [("releases",
        .list [.map [("name", .str "db"), ("version", .str "1.0.0")],
               .map [("name", .str "db"), ("version", .str "0.9.0")]])])) "db" "1.1.0" =
    { updated := true, oldVersion := some "0.9.0", newVersion := some "1.1.0",
      newContent := some (some (.map [("releases",
        .list [.map [("name", .str "db"), ("version", .str "1.1.0")],
               .map [("name", .str "db"), ("version", .str "1.1.0")]])])) } := rfl

/-- Prefix test on character lists (used to model the JS string methods
`includes` and `startsWith` computably). -/
def listHasPfx : List Char → List Char → Bool
  | [], _ => true
  | _ :: _, [] => false
  | c :: cs, d :: ds => c == d && listHasPfx cs ds

/-- Contiguous-substring test on character lists. -/
def listHasSub : List Char → List Char → Bool
  | needle, [] => needle.isEmpty
  | needle, d :: ds => listHasPfx needle (d :: ds) || listHasSub needle ds

/-- JS `s.includes(sub)`: contiguous substring test. -/
def strIncludes (s sub : String) : Bool := listHasSub sub.data s.data

/-- JS `s.startsWith(p)`. -/
def strStartsWith (s p : String) : Bool := listHasPfx p.data s.data

/-- JS `Array.prototype.join(", ")`. -/
def joinComma : List String → String
  | [] => ""
  | [x] => x
  | x :: xs => x ++ ", " ++ joinComma xs

/-- `CHART_FILE_NAME` of main.ts. -/
def CHART_FILE_NAME : String := "Chart"

/-- `HELMFILE_NAME` of main.ts. -/
def HELMFILE_NAME : String := "helmfile"

/-- `PR_TITLE_PREFIX` of main.ts (the fixed marker string put before the
dependency name in the PR title). -/
def PR_TITLE_MARKER : String := "deps: update Helm chart dependencies: "

/-- `DEFAULT_BASE_BRANCH` of main.ts. -/
def DEFAULT_BASE_BRANCH : String := "master"

/-- A directory entry of `fs.readdirSync(workspace, {withFileTypes: true})`.
`readdirSync` without an encoding option always yields string names, so the
`Buffer` fallback of main.ts line 194 is the identity here. -/
structure Dirent where
  name : String
  isDirectory : Bool

/-- The filesystem as seen by the action: the first-level entries of the
workspace, existence of a file `basename` directly under a first-level
directory, and the (parsed-or-unparseable) text content of such a file. -/
structure FS where
  dirents : List Dirent
  fileExists : String → String → Bool
  content : String → String → YamlText

/-- `findChartFiles` of main.ts (lines 89-102): for each of
`Chart`/`helmfile` and each of `yaml`/`yml`, keep the basename when the
file exists in the directory (the absolute path is determined by the
`(directory, basename)` pair, so basenames are returned). -/
def findChartFiles (fs : FS) (chartDir : String) : List String :=
  [CHART_FILE_NAME, HELMFILE_NAME].flatMap fun nm =>
    ["yaml", "yml"].flatMap fun ext =>
      if fs.fileExists chartDir (nm ++ "." ++ ext) then [nm ++ "." ++ ext] else []

/-- `getChartFilesWithDirs` of main.ts (lines 185-203): first-level
directories only, kept when the filter is empty or the name starts with it,
then one `(chartDir, basename)` pair per discovered file. -/
def getChartFilesWithDirs (fs : FS) (chartFilter : String) : List (String × String) :=
  fs.dirents.flatMap fun dirent =>
    if dirent.isDirectory then
      if chartFilter == "" || strStartsWith dirent.name chartFilter then
        (findChartFiles fs dirent.name).map fun f => (dirent.name, f)
      else []
    else []

/-- Raw action inputs as returned by `core.getInput` (missing inputs come
back as the empty string, since none is declared `required` at runtime). -/
structure RawInputs where
  serviceName : String
  version : String
  githubToken : String
  chartFilter : String
  branch : String

/-- `ActionInputs` of main.ts. -/
structure ActionInputs where
  serviceName : String
  version : String
  githubToken : String
  chartFilter : String
  branch : String

/-- `getInputs` of main.ts (lines 75-82): `branch` falls back to
`DEFAULT_BASE_BRANCH` when empty (JS `||` on strings). -/
def getInputs (raw : RawInputs) : ActionInputs :=
  { serviceName := raw.serviceName, version := raw.version,
    githubToken := raw.githubToken, chartFilter := raw.chartFilter,
    branch := if raw.branch == "" then DEFAULT_BASE_BRANCH else raw.branch }

/-- A file staged for commit (`fileUpdates` element of main.ts `run`). -/
structure FileUpdate where
  path : String
  content : YamlText

/-- One remote GitHub API call, as attempted by the action. -/
inductive RemoteOp where
  | getRef (ref : String) : RemoteOp
  | createRef (ref : String) : RemoteOp
  | getContent (path branch : String) : RemoteOp
  | createOrUpdateFile (path message : String) (content : YamlText)
      (branch : String) (sha : Option String) : RemoteOp
  | createPull (title head base body : String) : RemoteOp

/-- The remote host as an oracle: whether each call succeeds, and the net
result of `getFileSha` per path (`none` both when the file is absent and
when the underlying call failed, since main.ts lines 221-234 swallow every
error of `getContent` and return `undefined`). -/
structure Remote where
  getRefOk : Bool
  createRefOk : Bool
  sha : String → Option String
  commitOk : String → Bool
  prOk : Bool

/-- `getFileSha` of main.ts (lines 214-235): one `getContent` call whose
failure or sha-less answer is swallowed into `none`. -/
def getFileSha (remote : Remote) (path branch : String) : List RemoteOp × Option String :=
  ([.getContent path branch], remote.sha path)

/-- `createBranch` of main.ts (lines 245-267): resolve the base ref, then
create the new ref; a failure of either call throws (no catch inside). -/
def createBranch (remote : Remote) (baseBranch newBranch : String) :
    List RemoteOp × Except Unit Unit :=
  if remote.getRefOk then
    ([.getRef ("heads/" ++ baseBranch), .createRef ("refs/heads/" ++ newBranch)],
     if remote.createRefOk then .ok () else .error ())
  else ([.getRef ("heads/" ++ baseBranch)], .error ())

/-- The commit message of main.ts line 292. -/
def commitMsg (dependency version filePath : String) : String :=
  "deps: update \x27" ++ dependency ++ "\x27 to version " ++ version ++ " in " ++ filePath

/-- `updateFilesInBranch` of main.ts (lines 277-306): for each staged file,
fetch its sha (errors swallowed) then `createOrUpdateFileContents`; there is
NO try/catch in this loop, so the first failing commit call throws out of
the whole loop and the remaining files are never attempted.  Returns the
calls attempted in order and whether the loop completed. -/
def updateFilesInBranch (remote : Remote) (branchName dependency version : String) :
    List FileUpdate → List RemoteOp × Except Unit Unit
  | [] => ([], .ok ())
  | u :: rest =>
    let shaCall := RemoteOp.getContent u.path branchName
    let commitCall := RemoteOp.createOrUpdateFile u.path
      (commitMsg dependency version u.path) u.content branchName (remote.sha u.path)
    if remote.commitOk u.path then
      let (ops, res) := updateFilesInBranch remote branchName dependency version rest
      (shaCall :: commitCall :: ops, res)
    else ([shaCall, commitCall], .error ())

/-- The PR body of main.ts line 335. -/
def prBody (dependencyName newVersion : String) (chartsUpdated : List String) : String :=
  "Update Helm chart dependency \x27" ++ dependencyName ++ "\x27 to version " ++
    newVersion ++ " in charts: " ++ joinComma chartsUpdated ++ "."

/-- `createPullRequest` of main.ts (lines 319-337). -/
def createPullRequest (remote : Remote) (branchName : String) (chartsUpdated : List String)
    (dependencyName newVersion baseBranch : String) : List RemoteOp × Except Unit Unit :=
  ([.createPull (PR_TITLE_MARKER ++ dependencyName) branchName baseBranch
      (prBody dependencyName newVersion chartsUpdated)],
   if remote.prOk then .ok () else .error ())

/-- `updatedCharts.add(chartDir)` of main.ts: JS `Set` insertion, keeping
first-insertion order (which `Array.from` later iterates). -/
def addChart (l : List String) (d : String) : List String :=
  if l.contains d then l else l ++ [d]

/-- The warning of main.ts line 394 (the thrown error message itself is
abstracted away, errors being modelled without payload). -/
def warnMsg (chartDir : String) : String :=
  "Failed to process chart \x27" ++ chartDir ++ "\x27"

/-- The informational message of main.ts lines 364 and 399. -/
def noUpdateMsg (serviceName : String) : String :=
  "No charts required updating for dependency \x27" ++ serviceName ++
    "\x27. No PR will be opened."

/-- `setFailed` message of main.ts line 349. -/
def missingInputsMsg : String :=
  "Missing required inputs: service-name, version, github-token"

/-- `setFailed` message of main.ts line 414 (the underlying error message is
abstracted). -/
def actionFailedMsg : String := "Action failed with error: "

/-- The success message of main.ts line 411. -/
def successMsg (serviceName version : String) (charts : List String) : String :=
  "Successfully created PR to update dependency \x27" ++ serviceName ++
    "\x27 to version " ++ version ++ " in charts: " ++ joinComma charts

/-- One iteration of the per-file loop of `run` (main.ts lines 372-396),
folded over the accumulated `(fileUpdates, updatedCharts, warnings)`.  The
whole body sits in a try/catch: a throw from the chart patcher is logged as
a warning and the loop continues.  A file is staged when the patcher
reported `updated` and produced content (`yaml.stringify` never returns an
empty string, so the `newContent.length > 0` guard of line 389 is presence). -/
def processStep (serviceName version : String) (fs : FS)
    (acc : List FileUpdate × List String × List String) (e : String × String) :
    List FileUpdate × List String × List String :=
  let ups := acc.1
  let dirs := acc.2.1
  let warns := acc.2.2
  let chartDir := e.1
  let fileName := e.2
  if strIncludes fileName CHART_FILE_NAME then
    match updateChartYamlDependency (fs.content chartDir fileName) serviceName version with
    | .error _ => (ups, dirs, warns ++ [warnMsg chartDir])
    | .ok r =>
      match r.updated, r.newContent with
      | true, some t => (ups ++ [⟨chartDir ++ "/" ++ fileName, t⟩], addChart dirs chartDir, warns)
      | _, _ => (ups, dirs, warns)
  else if strIncludes fileName HELMFILE_NAME then
    let r := updateHelmfileReleaseVersion (fs.content chartDir fileName) serviceName version
    match r.updated, r.newContent with
    | true, some t => (ups ++ [⟨chartDir ++ "/" ++ fileName, t⟩], addChart dirs chartDir, warns)
    | _, _ => (ups, dirs, warns)
  else (ups, dirs, warns)

/-- The whole per-file loop of `run` (main.ts lines 368-396). -/
def processAll (serviceName version : String) (fs : FS) (entries : List (String × String)) :
    List FileUpdate × List String × List String :=
  entries.foldl (processStep serviceName version fs) ([], [], [])

/-- The observable outcome of one `run`: the `setFailed` message if any, the
`info` lines, the `warning` lines, and every remote API call attempted, in
order. -/
structure Outcome where
  failed : Option String
  infos : List String
  warnings : List String
  remoteCalls : List RemoteOp

/-- `run` of main.ts (lines 343-416), straight-line embedding.  The one
top-level try/catch converts any uncaught throw (branch creation, a commit
in `updateFilesInBranch`, PR creation) into a `setFailed` outcome. -/
def run (raw : RawInputs) (fs : FS) (remote : Remote) : Outcome :=
  let inp := getInputs raw
  if inp.serviceName == "" || inp.version == "" || inp.githubToken == "" then
    { failed := some missingInputsMsg, infos := [], warnings := [], remoteCalls := [] }
  else
    let chartFilesWithDirs := getChartFilesWithDirs fs inp.chartFilter
    if chartFilesWithDirs.length = 0 then
      { failed := none, infos := [noUpdateMsg inp.serviceName], warnings := [],
        remoteCalls := [] }
    else
      let acc := processAll inp.serviceName inp.version fs chartFilesWithDirs
      let fileUpdates := acc.1
      let updatedCharts := acc.2.1
      let warns := acc.2.2
      if updatedCharts.length = 0 then
        { failed := none, infos := [noUpdateMsg inp.serviceName], warnings := warns,
          remoteCalls := [] }
      else
        let chartsLabel := if inp.chartFilter == "" then "" else "-" ++ inp.chartFilter ++ "*"
        let branchName := "update-helm-chart" ++ chartsLabel ++ "-" ++ inp.serviceName ++
          "-" ++ inp.version
        let br := createBranch remote inp.branch branchName
        match br.2 with
        | .error _ =>
          { failed := some actionFailedMsg, infos := [], warnings := warns,
            remoteCalls := br.1 }
        | .ok _ =>
          let upd := updateFilesInBranch remote branchName inp.serviceName inp.version
            fileUpdates
          match upd.2 with
          | .error _ =>
            { failed := some actionFailedMsg, infos := [], warnings := warns,
              remoteCalls := br.1 ++ upd.1 }
          | .ok _ =>
            let pr := createPullRequest remote branchName updatedCharts inp.serviceName
              inp.version inp.branch
            match pr.2 with
            | .error _ =>
              { failed := some actionFailedMsg, infos := [], warnings := warns,
                remoteCalls := br.1 ++ upd.1 ++ pr.1 }
            | .ok _ =>
              { failed := none,
                infos := [successMsg inp.serviceName inp.version updatedCharts],
                warnings := warns, remoteCalls := br.1 ++ upd.1 ++ pr.1 }

/-! ### Specification-side characterizations of the patch loops

These re-state the loop behaviour in the spec's vocabulary (update **all**
matching entries, record the **last** old version) so the theorems below
compare the embedded source against them. -/

/-- The `name` field of an entry, when present as a string. -/
def entryNameStr : Yaml → Option String
  | .map kvs =>
    match lookupKV kvs "name" with
    | some (.str n0) => some n0
    | _ => none
  | _ => none

/-- The `version` field of an entry, when present as a string. -/
def entryOldVersion : Yaml → Option String
  | .map kvs =>
    match lookupKV kvs "version" with
    | some (.str v0) => some v0
    | _ => none
  | _ => none

/-- An entry the spec calls a matching record: a mapping whose `name` and
`version` are strings, the name equal to the target and the version
different from the target version. -/
def relMatches (name version : String) (e : Yaml) : Bool :=
  entryNameStr e == some name &&
    ((entryOldVersion e).isSome && entryOldVersion e != some version)

/-- Spec-side mass update: overwrite the version of every matching entry,
leave everything else untouched. -/
def specUpdateList (name version : String) (es : List Yaml) : List Yaml :=
  es.map fun e => cond (relMatches name version e) (jsSet e "version" (.str version)) e

/-- Spec-side old version: the previous version of the last matching entry. -/
def specLastOldVersion (name version : String) (es : List Yaml) : Option String :=
  (es.filterMap fun e => cond (relMatches name version e) (entryOldVersion e) none).getLast?

theorem getLast?_cons_getD {α : Type} (x : α) (l : List α) :
    (x :: l).getLast? = some (l.getLast?.getD x) := by
  induction l generalizing x with
  | nil => rfl
  | cons y ys ih =>
    rw [List.getLast?_cons_cons, ih y]
    simp

theorem relMatches_version_isSome {n v : String} {e : Yaml}
    (h : relMatches n v e = true) : (entryOldVersion e).isSome = true := by
  unfold relMatches at h
  simp only [Bool.and_eq_true] at h
  exact h.2.1

theorem entryOldVersion_none_not_relMatches {n v : String} {e : Yaml}
    (h : entryOldVersion e = none) : relMatches n v e = false := by
  cases hr : relMatches n v e
  · rfl
  · have hs := relMatches_version_isSome hr
    rw [h] at hs
    simp at hs

theorem some_bne_some (a b : String) : (some a != some b) = (a != b) := by
  simp [bne]

theorem specUpdateList_cons (n v : String) (e : Yaml) (es : List Yaml) :
    specUpdateList n v (e :: es) =
      cond (relMatches n v e) (jsSet e "version" (.str v)) e :: specUpdateList n v es := rfl

theorem specLast_cons_false {n v : String} {e : Yaml} (es : List Yaml)
    (h : relMatches n v e = false) :
    specLastOldVersion n v (e :: es) = specLastOldVersion n v es := by
  unfold specLastOldVersion
  simp only [List.filterMap_cons, h, cond_false]

theorem specLast_cons_true {n v v0 : String} {e : Yaml} (es : List Yaml)
    (h : relMatches n v e = true) (ho : entryOldVersion e = some v0) :
    specLastOldVersion n v (e :: es) = some ((specLastOldVersion n v es).getD v0) := by
  unfold specLastOldVersion
  simp only [List.filterMap_cons, h, cond_true, ho]
  exact getLast?_cons_getD v0 _

theorem updateReleases_eq (n v : String) (es : List Yaml) :
    updateReleases es n v =
      (specUpdateList n v es, es.any (relMatches n v), specLastOldVersion n v es) := by
  induction es with
  | nil => rfl
  | cons rel rest ih =>
    simp only [updateReleases, ih]
    cases rel with
    | map kvs =>
      rcases hn : lookupKV kvs "name" with _ | yn
      · have hm : relMatches n v (.map kvs) = false := by
          simp [relMatches, entryNameStr, hn]
        simp only [hn]
        rw [specUpdateList_cons, hm, cond_false, List.any_cons, hm, Bool.false_or,
          specLast_cons_false rest hm]
      · cases yn with
        | str n0 =>
          rcases hv : lookupKV kvs "version" with _ | yv
          · have hm : relMatches n v (.map kvs) = false := by
              simp [relMatches, entryNameStr, entryOldVersion, hn, hv]
            simp only [hn, hv]
            rw [specUpdateList_cons, hm, cond_false, List.any_cons, hm, Bool.false_or,
              specLast_cons_false rest hm]
          · cases yv with
            | str v0 =>
              simp only [hn, hv]
              by_cases hg : (n0 == n && v0 != v) = true
              · have hg' := hg
                simp only [Bool.and_eq_true, beq_iff_eq, bne_iff_ne] at hg'
                have hm : relMatches n v (.map kvs) = true := by
                  simp [relMatches, entryNameStr, entryOldVersion, hn, hv, bne, hg'.1, hg'.2]
                rw [if_pos hg]
                rw [specUpdateList_cons, hm, cond_true, List.any_cons, hm, Bool.true_or,
                  specLast_cons_true rest hm
                    (show entryOldVersion (.map kvs) = some v0 by
                      simp [entryOldVersion, hv])]
                rfl
              · have hg' : (n0 == n && v0 != v) = false := by
                  revert hg
                  cases n0 == n && v0 != v <;> simp
                have hm : relMatches n v (.map kvs) = false := by
                  simp only [relMatches, entryNameStr, entryOldVersion, hn, hv]
                  simp only [Option.isSome_some, Bool.true_and, some_bne_some]
                  simpa using hg'
                rw [if_neg hg]
                rw [specUpdateList_cons, hm, cond_false, List.any_cons, hm, Bool.false_or,
                  specLast_cons_false rest hm]
            | null =>
              have hm : relMatches n v (.map kvs) = false := by
                simp [relMatches, entryNameStr, entryOldVersion, hn, hv]
              simp only [hn, hv]
              rw [specUpdateList_cons, hm, cond_false, List.any_cons, hm, Bool.false_or,
                specLast_cons_false rest hm]
            | num s =>
              have hm : relMatches n v (.map kvs) = false := by
                simp [relMatches, entryNameStr, entryOldVersion, hn, hv]
              simp only [hn, hv]
              rw [specUpdateList_cons, hm, cond_false, List.any_cons, hm, Bool.false_or,
                specLast_cons_false rest hm]
            | list xs =>
              have hm : relMatches n v (.map kvs) = false := by
                simp [relMatches, entryNameStr, entryOldVersion, hn, hv]
              simp only [hn, hv]
              rw [specUpdateList_cons, hm, cond_false, List.any_cons, hm, Bool.false_or,
                specLast_cons_false rest hm]
            | map m =>
              have hm : relMatches n v (.map kvs) = false := by
                simp [relMatches, entryNameStr, entryOldVersion, hn, hv]
              simp only [hn, hv]
              rw [specUpdateList_cons, hm, cond_false, List.any_cons, hm, Bool.false_or,
                specLast_cons_false rest hm]
        | null =>
          have hm : relMatches n v (.map kvs) = false := by
            simp [relMatches, entryNameStr, hn]
          simp only [hn]
          rw [specUpdateList_cons, hm, cond_false, List.any_cons, hm, Bool.false_or,
            specLast_cons_false rest hm]
        | num s =>
          have hm : relMatches n v (.map kvs) = false := by
            simp [relMatches, entryNameStr, hn]
          simp only [hn]
          rw [specUpdateList_cons, hm, cond_false, List.any_cons, hm, Bool.false_or,
            specLast_cons_false rest hm]
        | list xs =>
          have hm : relMatches n v (.map kvs) = false := by
            simp [relMatches, entryNameStr, hn]
          simp only [hn]
          rw [specUpdateList_cons, hm, cond_false, List.any_cons, hm, Bool.false_or,
            specLast_cons_false rest hm]
        | map m =>
          have hm : relMatches n v (.map kvs) = false := by
            simp [relMatches, entryNameStr, hn]
          simp only [hn]
          rw [specUpdateList_cons, hm, cond_false, List.any_cons, hm, Bool.false_or,
            specLast_cons_false rest hm]
    | null =>
      have hm : relMatches n v Yaml.null = false := by simp [relMatches, entryNameStr]
      rw [specUpdateList_cons, hm, cond_false, List.any_cons, hm, Bool.false_or,
        specLast_cons_false rest hm]
    | str s =>
      have hm : relMatches n v (Yaml.str s) = false := by simp [relMatches, entryNameStr]
      rw [specUpdateList_cons, hm, cond_false, List.any_cons, hm, Bool.false_or,
        specLast_cons_false rest hm]
    | num s =>
      have hm : relMatches n v (Yaml.num s) = false := by simp [relMatches, entryNameStr]
      rw [specUpdateList_cons, hm, cond_false, List.any_cons, hm, Bool.false_or,
        specLast_cons_false rest hm]
    | list xs =>
      have hm : relMatches n v (Yaml.list xs) = false := by simp [relMatches, entryNameStr]
      rw [specUpdateList_cons, hm, cond_false, List.any_cons, hm, Bool.false_or,
        specLast_cons_false rest hm]

theorem spec_cons_nomatch {n v : String} {dep : Yaml} (rest : List Yaml)
    (hm : relMatches n v dep = false) :
    (specUpdateList n v (dep :: rest), (dep :: rest).any (relMatches n v),
      specLastOldVersion n v (dep :: rest))
      = (dep :: specUpdateList n v rest, rest.any (relMatches n v),
          specLastOldVersion n v rest) := by
  rw [specUpdateList_cons, hm, cond_false, List.any_cons, hm, Bool.false_or,
    specLast_cons_false rest hm]

theorem spec_cons_match {n v v0 : String} {dep : Yaml} (rest : List Yaml)
    (hm : relMatches n v dep = true) (ho : entryOldVersion dep = some v0) :
    (specUpdateList n v (dep :: rest), (dep :: rest).any (relMatches n v),
      specLastOldVersion n v (dep :: rest))
      = (jsSet dep "version" (.str v) :: specUpdateList n v rest, true,
          some ((specLastOldVersion n v rest).getD v0)) := by
  rw [specUpdateList_cons, hm, cond_true, List.any_cons, hm, Bool.true_or,
    specLast_cons_true rest hm ho]

theorem updateEntries_ok (n v : String) (es : List Yaml)
    (h : ∀ e ∈ es, e.isNull = false) :
    updateEntries es n v =
      .ok (specUpdateList n v es, es.any (relMatches n v), specLastOldVersion n v es) := by
  induction es with
  | nil => rfl
  | cons dep rest ih =>
    have hdep := h dep (List.mem_cons_self dep rest)
    have hrest : ∀ e ∈ rest, e.isNull = false := fun e he => h e (List.mem_cons_of_mem dep he)
    have ihr := ih hrest
    simp only [updateEntries, ihr]
    cases dep with
    | null => simp [Yaml.isNull] at hdep
    | map kvs =>
      simp only [jsGet]
      rcases hn : lookupKV kvs "name" with _ | yn
      · have hm : relMatches n v (.map kvs) = false := by
          simp [relMatches, entryNameStr, hn]
        simp only [hn]
        rw [spec_cons_nomatch rest hm]
      · cases yn with
        | str n0 =>
          rcases hv : lookupKV kvs "version" with _ | yv
          · have hm : relMatches n v (.map kvs) = false := by
              simp [relMatches, entryNameStr, entryOldVersion, hn, hv]
            simp only [hn, hv]
            rw [spec_cons_nomatch rest hm]
          · cases yv with
            | str v0 =>
              simp only [hn, hv]
              by_cases hg : (n0 == n && v0 != v) = true
              · have hg' := hg
                simp only [Bool.and_eq_true, beq_iff_eq, bne_iff_ne] at hg'
                have hm : relMatches n v (.map kvs) = true := by
                  simp [relMatches, entryNameStr, entryOldVersion, hn, hv, bne, hg'.1, hg'.2]
                rw [if_pos hg, spec_cons_match rest hm
                  (show entryOldVersion (.map kvs) = some v0 by simp [entryOldVersion, hv])]
              · have hg2 : (n0 == n && v0 != v) = false := by
                  revert hg
                  cases n0 == n && v0 != v <;> simp
                have hm : relMatches n v (.map kvs) = false := by
                  simp only [relMatches, entryNameStr, entryOldVersion, hn, hv]
                  simp only [Option.isSome_some, Bool.true_and, some_bne_some]
                  simpa using hg2
                rw [if_neg hg, spec_cons_nomatch rest hm]
            | null =>
              have hm : relMatches n v (.map kvs) = false := by
                simp [relMatches, entryNameStr, entryOldVersion, hn, hv]
              simp only [hn, hv]
              rw [spec_cons_nomatch rest hm]
            | num s =>
              have hm : relMatches n v (.map kvs) = false := by
                simp [relMatches, entryNameStr, entryOldVersion, hn, hv]
              simp only [hn, hv]
              rw [spec_cons_nomatch rest hm]
            | list xs =>
              have hm : relMatches n v (.map kvs) = false := by
                simp [relMatches, entryNameStr, entryOldVersion, hn, hv]
              simp only [hn, hv]
              rw [spec_cons_nomatch rest hm]
            | map m =>
              have hm : relMatches n v (.map kvs) = false := by
                simp [relMatches, entryNameStr, entryOldVersion, hn, hv]
              simp only [hn, hv]
              rw [spec_cons_nomatch rest hm]
        | null =>
          have hm : relMatches n v (.map kvs) = false := by
            simp [relMatches, entryNameStr, hn]
          simp only [hn]
          rw [spec_cons_nomatch rest hm]
        | num s =>
          have hm : relMatches n v (.map kvs) = false := by
            simp [relMatches, entryNameStr, hn]
          simp only [hn]
          rw [spec_cons_nomatch rest hm]
        | list xs =>
          have hm : relMatches n v (.map kvs) = false := by
            simp [relMatches, entryNameStr, hn]
          simp only [hn]
          rw [spec_cons_nomatch rest hm]
        | map m =>
          have hm : relMatches n v (.map kvs) = false := by
            simp [relMatches, entryNameStr, hn]
          simp only [hn]
          rw [spec_cons_nomatch rest hm]
    | str s =>
      have hm : relMatches n v (Yaml.str s) = false := by simp [relMatches, entryNameStr]
      simp only [jsGet]
      rw [spec_cons_nomatch rest hm]
    | num s =>
      have hm : relMatches n v (Yaml.num s) = false := by simp [relMatches, entryNameStr]
      simp only [jsGet]
      rw [spec_cons_nomatch rest hm]
    | list xs =>
      have hm : relMatches n v (Yaml.list xs) = false := by simp [relMatches, entryNameStr]
      simp only [jsGet]
      rw [spec_cons_nomatch rest hm]

theorem updateEntries_error (n v : String) (es : List Yaml) (h : Yaml.null ∈ es) :
    updateEntries es n v = .error () := by
  induction es with
  | nil => simp at h
  | cons dep rest ih =>
    rcases List.mem_cons.mp h with hdep | hrest
    · cases hdep
      rfl
    · have ihr := ih hrest
      cases dep with
      | null => rfl
      | map kvs =>
        simp only [updateEntries, jsGet, ihr]
        rcases hn : lookupKV kvs "name" with _ | yn
        · simp only [hn]
        · cases yn with
          | str n0 =>
            rcases hv : lookupKV kvs "version" with _ | yv
            · simp only [hn, hv]
            · cases yv with
              | str v0 =>
                simp only [hn, hv]
                by_cases hg : (n0 == n && v0 != v) = true
                · rw [if_pos hg]
                · rw [if_neg hg]
              | null => simp only [hn, hv]
              | num s => simp only [hn, hv]
              | list xs => simp only [hn, hv]
              | map m => simp only [hn, hv]
          | null => simp only [hn]
          | num s => simp only [hn]
          | list xs => simp only [hn]
          | map m => simp only [hn]
      | str s => simp only [updateEntries, jsGet, ihr]
      | num s => simp only [updateEntries, jsGet, ihr]
      | list xs => simp only [updateEntries, jsGet, ihr]

theorem chart_update_pos {kvs : List (String × Yaml)} {deps : List Yaml} (n v : String)
    (hdeps : lookupKV kvs "dependencies" = some (.list deps))
    (hnull : ∀ e ∈ deps, e.isNull = false)
    (hany : deps.any (relMatches n v) = true) :
    updateChartYamlDependency (some (.map kvs)) n v =
      .ok { updated := true, oldVersion := specLastOldVersion n v deps,
            newVersion := some v,
            newContent := some (some (.map
              (setKV kvs "dependencies" (.list (specUpdateList n v deps))))) } := by
  simp only [updateChartYamlDependency, yamlParse, jsGet, hdeps,
    updateEntries_ok n v deps hnull, hany, if_true, yamlStringify, jsSet]

theorem chart_update_neg {kvs : List (String × Yaml)} {deps : List Yaml} (n v : String)
    (hdeps : lookupKV kvs "dependencies" = some (.list deps))
    (hnull : ∀ e ∈ deps, e.isNull = false)
    (hany : deps.any (relMatches n v) = false) :
    updateChartYamlDependency (some (.map kvs)) n v = .ok { updated := false } := by
  simp only [updateChartYamlDependency, yamlParse, jsGet, hdeps,
    updateEntries_ok n v deps hnull, hany]
  rfl

theorem chart_update_nolist {kvs : List (String × Yaml)} (n v : String)
    (hdeps : ∀ ds, lookupKV kvs "dependencies" ≠ some (.list ds)) :
    updateChartYamlDependency (some (.map kvs)) n v = .ok { updated := false } := by
  simp only [updateChartYamlDependency, yamlParse, jsGet]

theorem chart_update_nonmap {doc : Yaml} (n v : String)
    (hnn : doc.isNull = false) (hnm : ∀ kvs, doc ≠ .map kvs) :
    updateChartYamlDependency (some doc) n v = .ok { updated := false } := by
  cases doc with
  | null => simp [Yaml.isNull] at hnn
  | map kvs => exact absurd rfl (hnm kvs)
  | str s => rfl
  | num s => rfl
  | list xs => rfl

theorem chart_update_err {kvs : List (String × Yaml)} {deps : List Yaml} (n v : String)
    (hdeps : lookupKV kvs "dependencies" = some (.list deps))
    (hnull : Yaml.null ∈ deps) :
    updateChartYamlDependency (some (.map kvs)) n v = .error () := by
  simp only [updateChartYamlDependency, yamlParse, jsGet, hdeps,
    updateEntries_error n v deps hnull]

theorem helm_update_pos {kvs : List (String × Yaml)} {rels : List Yaml} (n v : String)
    (hrel : lookupKV kvs "releases" = some (.list rels))
    (hany : rels.any (relMatches n v) = true) :
    updateHelmfileReleaseVersion (some (.map kvs)) n v =
      { updated := true, oldVersion := specLastOldVersion n v rels,
        newVersion := some v,
        newContent := some (some (.map
          (setKV kvs "releases" (.list (specUpdateList n v rels))))) } := by
  simp only [updateHelmfileReleaseVersion, yamlParse, hrel, updateReleases_eq n v rels,
    hany, if_true, yamlStringify]

theorem helm_update_neg {kvs : List (String × Yaml)} {rels : List Yaml} (n v : String)
    (hrel : lookupKV kvs "releases" = some (.list rels))
    (hany : rels.any (relMatches n v) = false) :
    updateHelmfileReleaseVersion (some (.map kvs)) n v = { updated := false } := by
  simp only [updateHelmfileReleaseVersion, yamlParse, hrel, updateReleases_eq n v rels,
    hany]
  rfl

theorem helm_update_nolist {kvs : List (String × Yaml)} (n v : String)
    (hrel : ∀ rs, lookupKV kvs "releases" ≠ some (.list rs)) :
    updateHelmfileReleaseVersion (some (.map kvs)) n v = { updated := false } := by
  simp only [updateHelmfileReleaseVersion, yamlParse]

theorem helm_update_nonmap {doc : Yaml} (n v : String) (hnm : ∀ kvs, doc ≠ .map kvs) :
    updateHelmfileReleaseVersion (some doc) n v = { updated := false } := by
  cases doc with
  | map kvs => exact absurd rfl (hnm kvs)
  | null => rfl
  | str s => rfl
  | num s => rfl
  | list xs => rfl

theorem hasPfx_append {d t : List Char} (c : List Char) (h : listHasPfx d t = true) :
    listHasPfx d (t ++ c) = true := by
  induction d generalizing t with
  | nil => rfl
  | cons x xs ih =>
    cases t with
    | nil => simp [listHasPfx] at h
    | cons y ys =>
      simp only [listHasPfx, Bool.and_eq_true] at h
      simp only [List.cons_append, listHasPfx, Bool.and_eq_true]
      exact ⟨h.1, ih h.2⟩

theorem hasSub_nil (l : List Char) : listHasSub [] l = true := by
  cases l <;> rfl

theorem hasSub_append_right {d t : List Char} (c : List Char) (h : listHasSub d t = true) :
    listHasSub d (t ++ c) = true := by
  induction t with
  | nil =>
    cases d with
    | nil => exact hasSub_nil c
    | cons x xs => simp [listHasSub] at h
  | cons y ys ih =>
    simp only [listHasSub, Bool.or_eq_true] at h
    simp only [List.cons_append, listHasSub, Bool.or_eq_true]
    rcases h with h | h
    · exact Or.inl (by have := hasPfx_append c h; simpa using this)
    · exact Or.inr (ih h)

theorem hasSub_append_left {d t : List Char} (a : List Char) (h : listHasSub d t = true) :
    listHasSub d (a ++ t) = true := by
  induction a with
  | nil => simpa using h
  | cons x xs ih =>
    simp only [List.cons_append, listHasSub, Bool.or_eq_true]
    exact Or.inr ih

theorem hasPfx_self (d b : List Char) : listHasPfx d (d ++ b) = true := by
  induction d with
  | nil => rfl
  | cons x xs ih =>
    simp only [List.cons_append, listHasPfx, Bool.and_eq_true]
    exact ⟨by simp, ih⟩

theorem hasSub_self (d b : List Char) : listHasSub d (d ++ b) = true := by
  cases d with
  | nil => exact hasSub_nil _
  | cons x xs =>
    simp only [List.cons_append, listHasSub, Bool.or_eq_true]
    exact Or.inl (by have := hasPfx_self (x :: xs) b; simpa using this)

theorem joinComma_sub {d : String} (ds : List String) (h : d ∈ ds) :
    listHasSub d.data (joinComma ds).data = true := by
  induction ds with
  | nil => simp at h
  | cons x xs ih =>
    rcases List.mem_cons.mp h with rfl | hmem
    · cases xs with
      | nil =>
        have := hasSub_self d.data []
        simpa using this
      | cons y ys =>
        show listHasSub d.data (d ++ ", " ++ joinComma (y :: ys)).data = true
        rw [String.data_append, String.data_append, List.append_assoc]
        exact hasSub_self _ _
    · cases xs with
      | nil => simp at hmem
      | cons y ys =>
        show listHasSub d.data (x ++ ", " ++ joinComma (y :: ys)).data = true
        rw [String.data_append, String.data_append]
        exact hasSub_append_left _ (ih hmem)

theorem strIncludes_join {d : String} (a c : String) (ds : List String) (h : d ∈ ds) :
    strIncludes (a ++ joinComma ds ++ c) d = true := by
  unfold strIncludes
  rw [String.data_append, String.data_append]
  exact hasSub_append_right _ (hasSub_append_left _ (joinComma_sub ds h))

theorem strIncludes_prBody {d n v : String} (ds : List String) (h : d ∈ ds) :
    strIncludes (prBody n v ds) d = true := by
  unfold prBody
  have := strIncludes_join
    ("Update Helm chart dependency \x27" ++ n ++ "\x27 to version " ++ v ++ " in charts: ")
    "." ds h
  unfold strIncludes at this ⊢
  rw [String.data_append, String.data_append] at this ⊢
  rw [String.data_append, String.data_append, String.data_append] at this ⊢
  simpa [List.append_assoc] using this

/-- The four descriptor basenames the scanner looks for, in the order the
nested loops of `findChartFiles` generate them. -/
def chartFileBasenames : List String :=
  ["Chart.yaml", "Chart.yml", "helmfile.yaml", "helmfile.yml"]

/-- Spec-side scanner: keep first-level directories passing the filter, and
for each keep exactly the existing files among the four basenames, one
entry per file. -/
def scanSpec (fs : FS) (chartFilter : String) : List (String × String) :=
  (fs.dirents.filter fun d =>
      d.isDirectory && (chartFilter == "" || strStartsWith d.name chartFilter)).flatMap
    fun d => (chartFileBasenames.filter (fs.fileExists d.name)).map fun f => (d.name, f)

theorem findChartFiles_eq (fs : FS) (dir : String) :
    findChartFiles fs dir = chartFileBasenames.filter (fs.fileExists dir) := by
  unfold findChartFiles chartFileBasenames CHART_FILE_NAME HELMFILE_NAME
  by_cases h1 : fs.fileExists dir "Chart.yaml" <;>
    by_cases h2 : fs.fileExists dir "Chart.yml" <;>
    by_cases h3 : fs.fileExists dir "helmfile.yaml" <;>
    by_cases h4 : fs.fileExists dir "helmfile.yml" <;>
    simp [h1, h2, h3, h4]

theorem flatMap_if_eq_filter {α β : Type} (c : α → Bool) (g : α → List β) (l : List α) :
    (l.flatMap fun x => if c x then g x else []) = (l.filter c).flatMap g := by
  induction l with
  | nil => rfl
  | cons x xs ih => by_cases h : c x <;> simp [h, ih]

theorem getChartFilesWithDirs_eq (fs : FS) (p : String) :
    getChartFilesWithDirs fs p = scanSpec fs p := by
  unfold getChartFilesWithDirs scanSpec
  have hfun : (fun (dirent : Dirent) =>
      if dirent.isDirectory then
        (if (p == "" || strStartsWith dirent.name p) then
          (findChartFiles fs dirent.name).map (fun f => (dirent.name, f))
        else [])
      else ([] : List (String × String))) =
      fun dirent =>
        if (dirent.isDirectory && (p == "" || strStartsWith dirent.name p)) then
          (chartFileBasenames.filter (fs.fileExists dirent.name)).map
            (fun f => (dirent.name, f))
        else [] := by
    funext dirent
    by_cases h1 : dirent.isDirectory <;>
      by_cases h2 : (p == "" || strStartsWith dirent.name p) = true <;>
      simp [h1, h2, findChartFiles_eq]
  rw [hfun, flatMap_if_eq_filter]

theorem addChart_ne_nil (l : List String) (d : String) : addChart l d ≠ [] := by
  unfold addChart
  split
  · rename_i hc
    intro hnil
    rw [hnil] at hc
    simp at hc
  · simp

theorem processStep_inv (sn v : String) (fs : FS)
    (acc : List FileUpdate × List String × List String) (e : String × String)
    (h : acc.1 = [] ↔ acc.2.1 = []) :
    ((processStep sn v fs acc e).1 = [] ↔ (processStep sn v fs acc e).2.1 = []) := by
  unfold processStep
  dsimp only
  split
  · split
    · exact h
    · split
      · exact iff_of_false (by simp) (addChart_ne_nil _ _)
      · exact h
  · split
    · split
      · exact iff_of_false (by simp) (addChart_ne_nil _ _)
      · exact h
    · exact h

theorem processAll_go_nil {sn v : String} {fs : FS} (entries : List (String × String)) :
    ∀ acc : List FileUpdate × List String × List String,
      (acc.1 = [] ↔ acc.2.1 = []) →
      (((entries.foldl (processStep sn v fs) acc).1 = []) ↔
        ((entries.foldl (processStep sn v fs) acc).2.1 = [])) := by
  induction entries with
  | nil =>
    intro acc h
    simpa using h
  | cons e rest ih =>
    intro acc h
    rw [List.foldl_cons]
    exact ih _ (processStep_inv sn v fs acc e h)

theorem processAll_ups_nil_iff (sn v : String) (fs : FS) (entries : List (String × String)) :
    (processAll sn v fs entries).1 = [] ↔ (processAll sn v fs entries).2.1 = [] :=
  processAll_go_nil entries ([], [], []) (by simp)

/-- The pair of remote calls `updateFilesInBranch` makes for one staged file. -/
def commitCalls (remote : Remote) (b dep ver : String) (u : FileUpdate) : List RemoteOp :=
  [RemoteOp.getContent u.path b,
   RemoteOp.createOrUpdateFile u.path (commitMsg dep ver u.path) u.content b
     (remote.sha u.path)]

theorem updateFilesInBranch_eq (remote : Remote) (b dep ver : String)
    (us : List FileUpdate) :
    updateFilesInBranch remote b dep ver us =
      ((us.takeWhile fun u => remote.commitOk u.path).flatMap (commitCalls remote b dep ver)
        ++ (match us.dropWhile (fun u => remote.commitOk u.path) with
            | [] => []
            | u :: _ => commitCalls remote b dep ver u),
       if us.all (fun u => remote.commitOk u.path) then Except.ok () else Except.error ()) := by
  induction us with
  | nil => rfl
  | cons u rest ih =>
    by_cases hc : remote.commitOk u.path
    · simp only [updateFilesInBranch, hc, ih, List.takeWhile_cons, List.dropWhile_cons,
        List.all_cons, if_true, Bool.true_and, List.flatMap_cons, commitCalls,
        List.cons_append, List.append_assoc, List.nil_append, if_pos]
    · have hc' : remote.commitOk u.path = false := by
        revert hc
        cases remote.commitOk u.path <;> simp
      simp only [updateFilesInBranch, hc', List.takeWhile_cons, List.dropWhile_cons,
        List.all_cons, Bool.false_and, List.flatMap_nil, commitCalls, List.nil_append,
        Bool.false_eq_true, if_false]

theorem lookupKV_setKV_self (kvs : List (String × Yaml)) (k : String) (x : Yaml) :
    lookupKV (setKV kvs k x) k = some x := by
  induction kvs with
  | nil => simp [setKV, lookupKV]
  | cons kv rest ih =>
    obtain ⟨k', v'⟩ := kv
    by_cases h : k' = k
    · subst h
      simp [setKV, lookupKV]
    · simp [setKV, lookupKV, h, ih]

theorem lookupKV_setKV_other (kvs : List (String × Yaml)) {k k0 : String} (x : Yaml)
    (hne : k ≠ k0) :
    lookupKV (setKV kvs k x) k0 = lookupKV kvs k0 := by
  induction kvs with
  | nil => simp [setKV, lookupKV, hne]
  | cons kv rest ih =>
    obtain ⟨k', v'⟩ := kv
    by_cases h1 : k' = k
    · subst h1
      simp [setKV, lookupKV, hne]
    · simp [setKV, lookupKV, h1, ih]

theorem relMatches_map_iff {n v : String} {kvs : List (String × Yaml)} :
    relMatches n v (.map kvs) = true ↔
      ∃ n0 v0, lookupKV kvs "name" = some (.str n0) ∧
        lookupKV kvs "version" = some (.str v0) ∧ (n0 == n && v0 != v) = true := by
  unfold relMatches entryNameStr entryOldVersion
  rcases hnn : lookupKV kvs "name" with _ | yn
  · simp [hnn]
  · cases yn with
    | str n0 =>
      rcases hvv : lookupKV kvs "version" with _ | yv
      · simp [hnn, hvv]
      · cases yv with
        | str v0 => simp [hnn, hvv, some_bne_some]
        | null => simp [hnn, hvv]
        | num s => simp [hnn, hvv]
        | list xs => simp [hnn, hvv]
        | map m => simp [hnn, hvv]
    | null => simp [hnn]
    | num s => simp [hnn]
    | list xs => simp [hnn]
    | map m => simp [hnn]

theorem relMatches_update_false (n v : String) (e : Yaml) :
    relMatches n v (cond (relMatches n v e) (jsSet e "version" (.str v)) e) = false := by
  cases hm : relMatches n v e
  · simpa using hm
  · simp only [cond_true]
    cases e with
    | map kvs =>
      simp only [jsSet]
      cases hr : relMatches n v (.map (setKV kvs "version" (.str v)))
      · rfl
      · exfalso
        obtain ⟨n0, v0, h1, h2, hg⟩ := relMatches_map_iff.mp hr
        rw [lookupKV_setKV_self] at h2
        have hv0 : v = v0 := by
          injection h2 with h2'
          injection h2'
        subst hv0
        simp at hg
    | null => simp [relMatches, entryNameStr] at hm
    | str s => simp [relMatches, entryNameStr] at hm
    | num s => simp [relMatches, entryNameStr] at hm
    | list xs => simp [relMatches, entryNameStr] at hm

theorem specUpdateList_no_null {n v : String} {es : List Yaml}
    (h : ∀ e ∈ es, e.isNull = false) :
    ∀ e ∈ specUpdateList n v es, e.isNull = false := by
  intro e he
  unfold specUpdateList at he
  obtain ⟨e0, he0, rfl⟩ := List.mem_map.mp he
  cases hm : relMatches n v e0
  · simpa [hm] using h e0 he0
  · simp only [hm, cond_true]
    cases e0 with
    | null => simp [relMatches, entryNameStr] at hm
    | map kvs => simp [jsSet, Yaml.isNull]
    | str s => simp [jsSet, Yaml.isNull]
    | num s => simp [jsSet, Yaml.isNull]
    | list xs => simp [jsSet, Yaml.isNull]

theorem specUpdateList_any_false (n v : String) (es : List Yaml) :
    (specUpdateList n v es).any (relMatches n v) = false := by
  unfold specUpdateList
  rw [List.any_map]
  rw [List.any_eq_false]
  intro e he
  simp [Function.comp, relMatches_update_false]

theorem any_filter_of_imp {α : Type} (p q : α → Bool) (l : List α)
    (h : ∀ x, p x = true → q x = true) : (l.filter q).any p = l.any p := by
  induction l with
  | nil => rfl
  | cons x xs ih =>
    cases hq : q x
    · have hp : p x = false := by
        cases hpx : p x
        · rfl
        · rw [h x hpx] at hq
          exact absurd hq (by simp)
      simp [List.filter_cons, hq, List.any_cons, hp, ih]
    · simp [List.filter_cons, hq, List.any_cons, ih]

theorem filterMap_filter_of_none {α β : Type} (f : α → Option β) (q : α → Bool) (l : List α)
    (h : ∀ x, q x = false → f x = none) : (l.filter q).filterMap f = l.filterMap f := by
  induction l with
  | nil => rfl
  | cons x xs ih =>
    cases hq : q x
    · simp [List.filter_cons, hq, List.filterMap_cons, h x hq, ih]
    · simp [List.filter_cons, hq, List.filterMap_cons, ih]

theorem specUpdateList_length (n v : String) (es : List Yaml) :
    (specUpdateList n v es).length = es.length := by
  unfold specUpdateList
  exact List.length_map es _

theorem specUpdateList_get (n v : String) (es : List Yaml) (i : Nat)
    (h : i < es.length) (h' : i < (specUpdateList n v es).length) :
    (specUpdateList n v es).get ⟨i, h'⟩ =
      cond (relMatches n v (es.get ⟨i, h⟩))
        (jsSet (es.get ⟨i, h⟩) "version" (.str v)) (es.get ⟨i, h⟩) := by
  unfold specUpdateList
  simp

theorem relMatches_shape {n v : String} {e : Yaml} (h : relMatches n v e = true) :
    ∃ kvs n0 v0, e = .map kvs ∧ lookupKV kvs "name" = some (.str n0) ∧
      lookupKV kvs "version" = some (.str v0) := by
  cases e with
  | map kvs =>
    obtain ⟨n0, v0, h1, h2, _⟩ := relMatches_map_iff.mp h
    exact ⟨kvs, n0, v0, rfl, h1, h2⟩
  | null => simp [relMatches, entryNameStr] at h
  | str s => simp [relMatches, entryNameStr] at h
  | num s => simp [relMatches, entryNameStr] at h
  | list xs => simp [relMatches, entryNameStr] at h

theorem createBranch_no_pull (remote : Remote) (b nb t hd base body : String) :
    RemoteOp.createPull t hd base body ∉ (createBranch remote b nb).1 := by
  unfold createBranch
  by_cases hg : remote.getRefOk <;> simp [hg]

theorem updateFiles_no_pull (remote : Remote) (b dep ver : String) (us : List FileUpdate)
    (t hd base body : String) :
    RemoteOp.createPull t hd base body ∉ (updateFilesInBranch remote b dep ver us).1 := by
  induction us with
  | nil => simp [updateFilesInBranch]
  | cons u rest ih =>
    by_cases hc : remote.commitOk u.path <;> simp [updateFilesInBranch, hc, ih]

/-- A remote on which every call succeeds (and no file pre-exists). -/
def remoteAllOk : Remote :=
  { getRefOk := true, createRefOk := true, sha := fun _ => none,
    commitOk := fun _ => true, prOk := true }

/-- The inputs of end-to-end scenario A: dependency `db`, version `1.1.0`. -/
def rawA : RawInputs :=
  { serviceName := "db", version := "1.1.0", githubToken := "t", chartFilter := "",
    branch := "" }

/-- `serviceA/Chart.yaml` of scenario A, parsed: one dependency `db` at `1.0.0`. -/
def chartDocA : Yaml :=
  .map [("apiVersion", .str "v2"), ("name", .str "serviceA"),
        ("dependencies", .list [.map [("name", .str "db"), ("version", .str "1.0.0")]])]

/-- `chartDocA` after the dependency moved to `1.1.0`. -/
def chartDocA' : Yaml :=
  .map [("apiVersion", .str "v2"), ("name", .str "serviceA"),
        ("dependencies", .list [.map [("name", .str "db"), ("version", .str "1.1.0")]])]

/-- Scenario A workspace: a single directory `serviceA` holding `Chart.yaml`. -/
def fsA : FS :=
  { dirents := [⟨"serviceA", true⟩],
    fileExists := fun d f => d == "serviceA" && f == "Chart.yaml",
    content := fun d f =>
      if d == "serviceA" && f == "Chart.yaml" then some chartDocA else none }

/-- Like `chartDocA` but for directory `serviceB`. -/
def chartDocB : Yaml :=
  .map [("apiVersion", .str "v2"), ("name", .str "serviceB"),
        ("dependencies", .list [.map [("name", .str "db"), ("version", .str "1.0.0")]])]

/-- `chartDocB` after the dependency moved to `1.1.0`. -/
def chartDocB' : Yaml :=
  .map [("apiVersion", .str "v2"), ("name", .str "serviceB"),
        ("dependencies", .list [.map [("name", .str "db"), ("version", .str "1.1.0")]])]

/-- Two-directory workspace: `serviceA` and `serviceB`, each with a matching
`Chart.yaml`. -/
def fsAB : FS :=
  { dirents := [⟨"serviceA", true⟩, ⟨"serviceB", true⟩],
    fileExists := fun d f => (d == "serviceA" || d == "serviceB") && f == "Chart.yaml",
    content := fun d f =>
      if d == "serviceA" && f == "Chart.yaml" then some chartDocA
      else if d == "serviceB" && f == "Chart.yaml" then some chartDocB
      else none }

/-- A remote on which the commit call for `serviceA/Chart.yaml` fails and
everything else succeeds. -/
def remoteFailA : Remote :=
  { getRefOk := true, createRefOk := true, sha := fun _ => none,
    commitOk := fun p => p != "serviceA/Chart.yaml", prOk := true }

example : (run rawA fsA remoteAllOk).remoteCalls =
    [.getRef "heads/master",
     .createRef "refs/heads/update-helm-chart-db-1.1.0",
     .getContent "serviceA/Chart.yaml" "update-helm-chart-db-1.1.0",
     .createOrUpdateFile "serviceA/Chart.yaml"
       (commitMsg "db" "1.1.0" "serviceA/Chart.yaml") (some chartDocA')
       "update-helm-chart-db-1.1.0" none,
     .createPull (PR_TITLE_MARKER ++ "db") "update-helm-chart-db-1.1.0" "master"
       (prBody "db" "1.1.0" ["serviceA"])] := rfl

/-! ### The claims -/

/-- C4: for every target name and version, a document text that fails to
parse makes both patch functions return `{updated := false}` without
throwing (the chart patcher returns `.ok`, i.e. no exception reaches the
caller). -/
theorem c4_parse_failure_fails_soft (n v : String) :
    updateChartYamlDependency none n v = .ok { updated := false } ∧
    updateHelmfileReleaseVersion none n v = { updated := false } :=
  ⟨rfl, rfl⟩

/-- C9: whenever a required input (service name, version or token) is
missing (empty), the run fails immediately with the fixed message and
attempts no remote call. -/
theorem c9_missing_inputs_fatal (raw : RawInputs) (fs : FS) (remote : Remote)
    (h : raw.serviceName = "" ∨ raw.version = "" ∨ raw.githubToken = "") :
    (run raw fs remote).failed = some missingInputsMsg ∧
    (run raw fs remote).remoteCalls = [] := by
  unfold run
  dsimp only
  have hcond : ((getInputs raw).serviceName == "" || (getInputs raw).version == ""
      || (getInputs raw).githubToken == "") = true := by
    rcases h with h | h | h <;> simp [getInputs, h]
  rw [if_pos hcond]
  exact ⟨rfl, rfl⟩

/-- C9 witness: a concrete run with an empty token fails fast with no
remote calls. -/
theorem c9_witness :
    (run { serviceName := "db", version := "1.1.0", githubToken := "",
           chartFilter := "", branch := "" } fsA remoteAllOk).failed =
      some missingInputsMsg ∧
    (run { serviceName := "db", version := "1.1.0", githubToken := "",
           chartFilter := "", branch := "" } fsA remoteAllOk).remoteCalls = [] :=
  c9_missing_inputs_fatal _ fsA remoteAllOk (Or.inr (Or.inr rfl))

/-- C8: when the required inputs are present but, after processing all
scanned entries, no file change was staged, the run ends with the
informational "no update needed" outcome: not failed, no remote call, the
single info line. -/
theorem c8_no_change_informational (raw : RawInputs) (fs : FS) (remote : Remote)
    (h1 : raw.serviceName ≠ "") (h2 : raw.version ≠ "") (h3 : raw.githubToken ≠ "")
    (h : (processAll raw.serviceName raw.version fs
        (getChartFilesWithDirs fs raw.chartFilter)).1 = []) :
    (run raw fs remote).failed = none ∧ (run raw fs remote).remoteCalls = [] ∧
    (run raw fs remote).infos = [noUpdateMsg raw.serviceName] := by
  unfold run
  dsimp only
  have hcond : ((getInputs raw).serviceName == "" || (getInputs raw).version == ""
      || (getInputs raw).githubToken == "") = false := by
    simp [getInputs, h1, h2, h3]
  rw [hcond]
  by_cases hlen : (getChartFilesWithDirs fs (getInputs raw).chartFilter).length = 0
  · rw [if_neg (by simp), if_pos hlen]
    exact ⟨rfl, rfl, rfl⟩
  · rw [if_neg (by simp), if_neg hlen]
    have hdirs : (processAll (getInputs raw).serviceName (getInputs raw).version fs
        (getChartFilesWithDirs fs (getInputs raw).chartFilter)).2.1 = [] :=
      (processAll_ups_nil_iff (getInputs raw).serviceName (getInputs raw).version fs
        (getChartFilesWithDirs fs (getInputs raw).chartFilter)).mp h
    have hlen2 : (processAll (getInputs raw).serviceName (getInputs raw).version fs
        (getChartFilesWithDirs fs (getInputs raw).chartFilter)).2.1.length = 0 := by
      rw [hdirs]
      rfl
    rw [if_pos hlen2]
    exact ⟨rfl, rfl, rfl⟩

/-- C8 witness: scenario-B-like workspace where `serviceA/Chart.yaml` has no
matching dependency, so the run is informational with no remote calls. -/
theorem c8_witness :
    (run { serviceName := "other", version := "1.1.0", githubToken := "t",
           chartFilter := "", branch := "" } fsA remoteAllOk).failed = none ∧
    (run { serviceName := "other", version := "1.1.0", githubToken := "t",
           chartFilter := "", branch := "" } fsA remoteAllOk).remoteCalls = [] ∧
    (run { serviceName := "other", version := "1.1.0", githubToken := "t",
           chartFilter := "", branch := "" } fsA remoteAllOk).infos =
      [noUpdateMsg "other"] :=
  c8_no_change_informational _ fsA remoteAllOk (by decide) (by decide) (by decide) rfl

/-- C7: the scanner equals its specification: it keeps exactly the
first-level directories passing the (empty-keeps-all, otherwise
name-starts-with) filter and, per kept directory, yields one entry per
existing file among exactly `Chart.yaml`, `Chart.yml`, `helmfile.yaml`,
`helmfile.yml`; membership form included.  A directory holding both a chart
file and a helmfile contributes one entry per file. -/
theorem c7_scanner_spec :
    (∀ (fs : FS) (p : String), getChartFilesWithDirs fs p = scanSpec fs p) ∧
    (∀ (fs : FS) (p dir f : String),
      (dir, f) ∈ getChartFilesWithDirs fs p ↔
        ((∃ d ∈ fs.dirents, d.name = dir ∧ d.isDirectory = true ∧
            (p == "" || strStartsWith dir p) = true) ∧
          f ∈ chartFileBasenames ∧ fs.fileExists dir f = true)) := by
  refine ⟨getChartFilesWithDirs_eq, ?_⟩
  intro fs p dir f
  rw [getChartFilesWithDirs_eq]
  unfold scanSpec
  simp only [List.mem_flatMap, List.mem_filter, List.mem_map, Bool.and_eq_true]
  constructor
  · rintro ⟨d, ⟨hdmem, hdir, hkeep⟩, f0, ⟨hfb, hfe⟩, heq⟩
    injection heq with he1 he2
    subst he1
    subst he2
    exact ⟨⟨d, hdmem, rfl, hdir, hkeep⟩, hfb, hfe⟩
  · rintro ⟨⟨d, hdmem, hname, hdir, hkeep⟩, hfb, hfe⟩
    subst hname
    exact ⟨d, ⟨hdmem, hdir, hkeep⟩, f, ⟨hfb, hfe⟩, rfl⟩

/-- C1 counterexample: two staged files (serviceA then serviceB); the commit
call for the first fails.  The run then fails fatally (`setFailed`), logs NO
warning, and never attempts any call for `serviceB/Chart.yaml` — refuting
the claim that a commit failure is caught as a warning with the remaining
files still attempted. -/
theorem c1_counterexample :
    (processAll "db" "1.1.0" fsAB (getChartFilesWithDirs fsAB "")).1 =
      [⟨"serviceA/Chart.yaml", some chartDocA'⟩, ⟨"serviceB/Chart.yaml", some chartDocB'⟩] ∧
    (run rawA fsAB remoteFailA).failed = some actionFailedMsg ∧
    (run rawA fsAB remoteFailA).warnings = [] ∧
    (run rawA fsAB remoteFailA).remoteCalls =
      [.getRef "heads/master",
       .createRef "refs/heads/update-helm-chart-db-1.1.0",
       .getContent "serviceA/Chart.yaml" "update-helm-chart-db-1.1.0",
       .createOrUpdateFile "serviceA/Chart.yaml"
         (commitMsg "db" "1.1.0" "serviceA/Chart.yaml") (some chartDocA')
         "update-helm-chart-db-1.1.0" none] :=
  ⟨rfl, rfl, rfl, rfl⟩

/-- C1 amended: the commit loop has no per-file recovery.  It attempts the
sha-fetch and commit calls for the longest prefix of files whose commit
succeeds plus the first failing file, aborts there (remaining files are
never attempted), and completes without error exactly when every staged
file commits; consequently a run that does not end in `setFailed` had every
staged commit succeed.  (Per-file recovery with a warning exists only in
the local processing loop, `processAll`.) -/
theorem c1_commit_loop_aborts :
    (∀ (remote : Remote) (b dep ver : String) (us : List FileUpdate),
      updateFilesInBranch remote b dep ver us =
        ((us.takeWhile fun u => remote.commitOk u.path).flatMap
            (commitCalls remote b dep ver)
          ++ (match us.dropWhile (fun u => remote.commitOk u.path) with
              | [] => []
              | u :: _ => commitCalls remote b dep ver u),
         if us.all (fun u => remote.commitOk u.path) then Except.ok ()
         else Except.error ()))
    ∧ (∀ (raw : RawInputs) (fs : FS) (remote : Remote),
        (run raw fs remote).failed = none →
        ((processAll (getInputs raw).serviceName (getInputs raw).version fs
            (getChartFilesWithDirs fs (getInputs raw).chartFilter)).1.all
          (fun u => remote.commitOk u.path)) = true) := by
  refine ⟨updateFilesInBranch_eq, ?_⟩
  intro raw fs remote hnone
  unfold run at hnone
  dsimp only at hnone
  by_cases hb : ((getInputs raw).serviceName == "" || (getInputs raw).version == ""
      || (getInputs raw).githubToken == "") = true
  · rw [if_pos hb] at hnone
    simp at hnone
  · rw [if_neg hb] at hnone
    by_cases hlen : (getChartFilesWithDirs fs (getInputs raw).chartFilter).length = 0
    · rw [if_pos hlen] at hnone
      rw [List.length_eq_zero] at hlen
      rw [hlen]
      rfl
    · rw [if_neg hlen] at hnone
      by_cases hdirs : (processAll (getInputs raw).serviceName (getInputs raw).version fs
          (getChartFilesWithDirs fs (getInputs raw).chartFilter)).2.1.length = 0
      · rw [List.length_eq_zero] at hdirs
        have hups := (processAll_ups_nil_iff (getInputs raw).serviceName
          (getInputs raw).version fs
          (getChartFilesWithDirs fs (getInputs raw).chartFilter)).mpr hdirs
        rw [hups]
        rfl
      · rw [if_neg hdirs] at hnone
        split at hnone
        · simp at hnone
        · split at hnone
          · simp at hnone
          · rename_i hub hup
            split at hnone
            · simp at hnone
            · by_cases hall : ((processAll (getInputs raw).serviceName
                  (getInputs raw).version fs
                  (getChartFilesWithDirs fs (getInputs raw).chartFilter)).1.all
                    (fun u => remote.commitOk u.path)) = true
              · exact hall
              · exfalso
                rw [updateFilesInBranch_eq] at hup
                rw [if_neg hall] at hup
                exact absurd hup (by simp)

/-- C1 witness: in scenario A with an all-success remote the run does not
fail, and the amended theorem yields that every staged commit succeeded. -/
theorem c1_witness :
    ((processAll "db" "1.1.0" fsA (getChartFilesWithDirs fsA "")).1.all
      (fun u => remoteAllOk.commitOk u.path)) = true :=
  c1_commit_loop_aborts.2 rawA fsA remoteAllOk rfl

/-- C2 counterexample: end-to-end scenario A (one chart `serviceA`, `db`
moving from `1.0.0` to `1.1.0`).  The patcher records the old version
`1.0.0`, a PR is opened whose body mentions `serviceA`, yet the body does
not contain `(old version: 1.0.0)` (nor `old version` at all) — refuting
the claim that the body mentions recorded old versions. -/
theorem c2_counterexample :
    (run rawA fsA remoteAllOk).remoteCalls =
      [.getRef "heads/master",
       .createRef "refs/heads/update-helm-chart-db-1.1.0",
       .getContent "serviceA/Chart.yaml" "update-helm-chart-db-1.1.0",
       .createOrUpdateFile "serviceA/Chart.yaml"
         (commitMsg "db" "1.1.0" "serviceA/Chart.yaml") (some chartDocA')
         "update-helm-chart-db-1.1.0" none,
       .createPull (PR_TITLE_MARKER ++ "db") "update-helm-chart-db-1.1.0" "master"
         (prBody "db" "1.1.0" ["serviceA"])] ∧
    updateChartYamlDependency (FS.content fsA "serviceA" "Chart.yaml") "db" "1.1.0" =
      .ok { updated := true, oldVersion := some "1.0.0", newVersion := some "1.1.0",
            newContent := some (some chartDocA') } ∧
    strIncludes (prBody "db" "1.1.0" ["serviceA"]) "serviceA" = true ∧
    strIncludes (prBody "db" "1.1.0" ["serviceA"]) "(old version: 1.0.0)" = false ∧
    strIncludes (prBody "db" "1.1.0" ["serviceA"]) "old version" = false :=
  ⟨rfl, rfl, rfl, rfl, rfl⟩

/-- C2 amended: every pull request the run opens has exactly the fixed body
built from the dependency name, the new version and the full list of
changed directories — so the body names every changed directory — and the
fixed title; recorded old versions do not appear in the body (shown at the
counterexample). -/
theorem c2_pr_body_lists_directories :
    ∀ (raw : RawInputs) (fs : FS) (remote : Remote) (t hd base body : String),
      RemoteOp.createPull t hd base body ∈ (run raw fs remote).remoteCalls →
      body = prBody (getInputs raw).serviceName (getInputs raw).version
          (processAll (getInputs raw).serviceName (getInputs raw).version fs
            (getChartFilesWithDirs fs (getInputs raw).chartFilter)).2.1 ∧
      t = PR_TITLE_MARKER ++ (getInputs raw).serviceName ∧
      ∀ d ∈ (processAll (getInputs raw).serviceName (getInputs raw).version fs
          (getChartFilesWithDirs fs (getInputs raw).chartFilter)).2.1,
        strIncludes body d = true := by
  intro raw fs remote t hd base body hmem
  unfold run at hmem
  dsimp only at hmem
  by_cases hb : ((getInputs raw).serviceName == "" || (getInputs raw).version == ""
      || (getInputs raw).githubToken == "") = true
  · rw [if_pos hb] at hmem
    simp at hmem
  · rw [if_neg hb] at hmem
    by_cases hlen : (getChartFilesWithDirs fs (getInputs raw).chartFilter).length = 0
    · rw [if_pos hlen] at hmem
      simp at hmem
    · rw [if_neg hlen] at hmem
      by_cases hdirs : (processAll (getInputs raw).serviceName (getInputs raw).version fs
          (getChartFilesWithDirs fs (getInputs raw).chartFilter)).2.1.length = 0
      · rw [if_pos hdirs] at hmem
        simp at hmem
      · rw [if_neg hdirs] at hmem
        split at hmem
        · exact absurd hmem (createBranch_no_pull _ _ _ _ _ _ _)
        · split at hmem
          · rcases List.mem_append.mp hmem with h | h
            · exact absurd h (createBranch_no_pull _ _ _ _ _ _ _)
            · exact absurd h (updateFiles_no_pull _ _ _ _ _ _ _ _ _)
          · have hpull : RemoteOp.createPull t hd base body =
                RemoteOp.createPull (PR_TITLE_MARKER ++ (getInputs raw).serviceName)
                  ("update-helm-chart" ++
                    (if (getInputs raw).chartFilter == "" then ""
                     else "-" ++ (getInputs raw).chartFilter ++ "*") ++ "-" ++
                    (getInputs raw).serviceName ++ "-" ++ (getInputs raw).version)
                  (getInputs raw).branch
                  (prBody (getInputs raw).serviceName (getInputs raw).version
                    (processAll (getInputs raw).serviceName (getInputs raw).version fs
                      (getChartFilesWithDirs fs (getInputs raw).chartFilter)).2.1) := by
              split at hmem
              · rcases List.mem_append.mp hmem with h | h
                · rcases List.mem_append.mp h with h2 | h2
                  · exact absurd h2 (createBranch_no_pull _ _ _ _ _ _ _)
                  · exact absurd h2 (updateFiles_no_pull _ _ _ _ _ _ _ _ _)
                · simpa [createPullRequest] using h
              · rcases List.mem_append.mp hmem with h | h
                · rcases List.mem_append.mp h with h2 | h2
                  · exact absurd h2 (createBranch_no_pull _ _ _ _ _ _ _)
                  · exact absurd h2 (updateFiles_no_pull _ _ _ _ _ _ _ _ _)
                · simpa [createPullRequest] using h
            injection hpull with h1 h2 h3 h4
            refine ⟨h4, h1, ?_⟩
            intro d hd2
            rw [h4]
            exact strIncludes_prBody _ hd2

/-- C2 witness: applying the amended theorem to the pull request actually
opened in scenario A shows its body names the changed directory. -/
theorem c2_witness :
    strIncludes (prBody "db" "1.1.0"
      (processAll "db" "1.1.0" fsA (getChartFilesWithDirs fsA "")).2.1) "serviceA"
      = true := by
  have hcalls : (run rawA fsA remoteAllOk).remoteCalls =
      [.getRef "heads/master",
       .createRef "refs/heads/update-helm-chart-db-1.1.0",
       .getContent "serviceA/Chart.yaml" "update-helm-chart-db-1.1.0",
       .createOrUpdateFile "serviceA/Chart.yaml"
         (commitMsg "db" "1.1.0" "serviceA/Chart.yaml") (some chartDocA')
         "update-helm-chart-db-1.1.0" none,
       .createPull (PR_TITLE_MARKER ++ "db") "update-helm-chart-db-1.1.0" "master"
         (prBody "db" "1.1.0" ["serviceA"])] := rfl
  have hmem : RemoteOp.createPull (PR_TITLE_MARKER ++ "db")
      "update-helm-chart-db-1.1.0" "master" (prBody "db" "1.1.0" ["serviceA"]) ∈
      (run rawA fsA remoteAllOk).remoteCalls := by
    rw [hcalls]
    simp
  have h := c2_pr_body_lists_directories rawA fsA remoteAllOk _ _ _ _ hmem
  have hsA : "serviceA" ∈
      (processAll "db" "1.1.0" fsA (getChartFilesWithDirs fsA "")).2.1 := by
    rw [show (processAll "db" "1.1.0" fsA (getChartFilesWithDirs fsA "")).2.1 =
      ["serviceA"] from rfl]
    exact List.mem_cons_self _ _
  exact h.2.2 "serviceA" hsA

/-- C3 counterexample: a parseable chart document whose dependency list is
`[null, {name: db, version: "1.0.0"}]` contains a matching entry, yet the
chart patch function throws (reading `name` of the null entry) instead of
returning `{updated := true, ...}` as the claim states. -/
theorem c3_counterexample :
    updateChartYamlDependency
      (some (.map [("dependencies",
        .list [.null, .map [("name", .str "db"), ("version", .str "1.0.0")]])]))
      "db" "1.1.0" = .error () ∧
    relMatches "db" "1.1.0" (.map [("name", .str "db"), ("version", .str "1.0.0")])
      = true :=
  ⟨rfl, rfl⟩

/-- C3 amended: on a parseable chart document that is a mapping whose
dependency list contains no null entry (the function throws on null — see
the counterexample — and a null document also throws), and on every
parseable helmfile document, the patcher rewrites the version of ALL
entries whose `name`/`version` are strings with name equal and version
different (not just the first), records the LAST such entry's previous
version as `oldVersion`, and serializes; with no such entry, or a missing
or non-sequence list, or a non-mapping document, it returns
`{updated := false}`. -/
theorem c3_patch_characterization :
    (∀ (kvs : List (String × Yaml)) (deps : List Yaml) (n v : String),
      lookupKV kvs "dependencies" = some (.list deps) →
      (∀ e ∈ deps, e.isNull = false) →
      updateChartYamlDependency (some (.map kvs)) n v =
        .ok (if deps.any (relMatches n v) then
          { updated := true, oldVersion := specLastOldVersion n v deps,
            newVersion := some v,
            newContent := some (some (.map (setKV kvs "dependencies"
              (.list (specUpdateList n v deps))))) }
        else { updated := false })) ∧
    (∀ (kvs : List (String × Yaml)) (n v : String),
      (∀ ds, lookupKV kvs "dependencies" ≠ some (.list ds)) →
      updateChartYamlDependency (some (.map kvs)) n v = .ok { updated := false }) ∧
    (∀ (doc : Yaml) (n v : String), doc.isNull = false → (∀ kvs, doc ≠ .map kvs) →
      updateChartYamlDependency (some doc) n v = .ok { updated := false }) ∧
    (∀ (kvs : List (String × Yaml)) (rels : List Yaml) (n v : String),
      lookupKV kvs "releases" = some (.list rels) →
      updateHelmfileReleaseVersion (some (.map kvs)) n v =
        (if rels.any (relMatches n v) then
          { updated := true, oldVersion := specLastOldVersion n v rels,
            newVersion := some v,
            newContent := some (some (.map (setKV kvs "releases"
              (.list (specUpdateList n v rels))))) }
        else { updated := false })) ∧
    (∀ (kvs : List (String × Yaml)) (n v : String),
      (∀ rs, lookupKV kvs "releases" ≠ some (.list rs)) →
      updateHelmfileReleaseVersion (some (.map kvs)) n v = { updated := false }) ∧
    (∀ (doc : Yaml) (n v : String), (∀ kvs, doc ≠ .map kvs) →
      updateHelmfileReleaseVersion (some doc) n v = { updated := false }) := by
  refine ⟨?_, ?_, ?_, ?_, ?_, ?_⟩
  · intro kvs deps n v hdeps hnull
    by_cases hany : deps.any (relMatches n v) = true
    · rw [if_pos hany]
      exact chart_update_pos n v hdeps hnull hany
    · rw [if_neg hany]
      have hany' : deps.any (relMatches n v) = false := by
        revert hany
        cases deps.any (relMatches n v) <;> simp
      exact chart_update_neg n v hdeps hnull hany'
  · intro kvs n v h
    exact chart_update_nolist n v h
  · intro doc n v h1 h2
    exact chart_update_nonmap n v h1 h2
  · intro kvs rels n v hrel
    by_cases hany : rels.any (relMatches n v) = true
    · rw [if_pos hany]
      exact helm_update_pos n v hrel hany
    · rw [if_neg hany]
      have hany' : rels.any (relMatches n v) = false := by
        revert hany
        cases rels.any (relMatches n v) <;> simp
      exact helm_update_neg n v hrel hany'
  · intro kvs n v h
    exact helm_update_nolist n v h
  · intro doc n v h
    exact helm_update_nonmap n v h

/-- C3 witness: a chart with three entries, two matching `db`, one not;
both matching entries are rewritten, the last one's previous version
`0.9.0` is recorded, and the other entry is untouched. -/
theorem c3_witness :
    updateChartYamlDependency (some (.map [("dependencies", .list
      [.map [("name", .str "db"), ("version", .str "1.0.0")],
       .map [("name", .str "other"), ("version", .str "2.0.0")],
       .map [("name", .str "db"), ("version", .str "0.9.0")]])])) "db" "1.1.0" =
      .ok { updated := true, oldVersion := some "0.9.0", newVersion := some "1.1.0",
            newContent := some (some (.map [("dependencies", .list
              [.map [("name", .str "db"), ("version", .str "1.1.0")],
               .map [("name", .str "other"), ("version", .str "2.0.0")],
               .map [("name", .str "db"), ("version", .str "1.1.0")]])])) } := by
  have h := c3_patch_characterization.1
    [("dependencies", .list
      [.map [("name", .str "db"), ("version", .str "1.0.0")],
       .map [("name", .str "other"), ("version", .str "2.0.0")],
       .map [("name", .str "db"), ("version", .str "0.9.0")]])]
    [.map [("name", .str "db"), ("version", .str "1.0.0")],
     .map [("name", .str "other"), ("version", .str "2.0.0")],
     .map [("name", .str "db"), ("version", .str "0.9.0")]]
    "db" "1.1.0" rfl (by decide)
  rw [h]
  rfl

/-- C5 counterexample: the document `{dependencies: [null]}` has no entry
whose name matches `db`, yet the chart patch function throws instead of
returning `{updated := false}` as the claim states for every such
document. -/
theorem c5_counterexample :
    updateChartYamlDependency (some (.map [("dependencies", .list [.null])]))
      "db" "1.1.0" = .error () ∧
    ([Yaml.null].any (relMatches "db" "1.1.0")) = false :=
  ⟨rfl, rfl⟩

/-- C5 amended: on a chart document whose dependency list has no null entry
(null makes the chart function throw, see the counterexample) and no
matching entry with a differing string version, and on any helmfile
document likewise, the patchers return `{updated := false}` with no
`newContent` — the document is never re-serialized (and the action never
writes locally at all, so on-disk bytes are untouched). -/
theorem c5_no_match_no_serialize :
    (∀ (kvs : List (String × Yaml)) (deps : List Yaml) (n v : String),
      lookupKV kvs "dependencies" = some (.list deps) →
      (∀ e ∈ deps, e.isNull = false) →
      deps.any (relMatches n v) = false →
      updateChartYamlDependency (some (.map kvs)) n v =
        .ok { updated := false, oldVersion := none, newVersion := none,
              newContent := none }) ∧
    (∀ (kvs : List (String × Yaml)) (rels : List Yaml) (n v : String),
      lookupKV kvs "releases" = some (.list rels) →
      rels.any (relMatches n v) = false →
      updateHelmfileReleaseVersion (some (.map kvs)) n v =
        { updated := false, oldVersion := none, newVersion := none,
          newContent := none }) :=
  ⟨fun _ _ n v h1 h2 h3 => chart_update_neg n v h1 h2 h3,
   fun _ _ n v h1 h2 => helm_update_neg n v h1 h2⟩

/-- C5 witness: a chart whose only `db` entry already carries the target
version, and a helmfile with no matching release name, both yield
`{updated := false}` with no content produced. -/
theorem c5_witness :
    updateChartYamlDependency (some (.map [("dependencies", .list
      [.map [("name", .str "db"), ("version", .str "1.1.0")]])])) "db" "1.1.0" =
      .ok { updated := false, oldVersion := none, newVersion := none,
            newContent := none } ∧
    updateHelmfileReleaseVersion (some (.map [("releases", .list
      [.map [("name", .str "other"), ("version", .str "2.0.0")]])])) "db" "1.1.0" =
      { updated := false, oldVersion := none, newVersion := none,
        newContent := none } :=
  ⟨c5_no_match_no_serialize.1 _ _ "db" "1.1.0" rfl (by decide) (by decide),
   c5_no_match_no_serialize.2 _ _ "db" "1.1.0" rfl (by decide)⟩

/-- C6: idempotence.  Whenever a patch application reports `updated` with a
new serialized content, applying the same patcher to that content with the
same target returns `{updated := false}` (for the chart patcher, stated on
its non-throwing runs, which are the only ones that produce content). -/
theorem c6_idempotent :
    (∀ (t : YamlText) (n v : String) (r : UpdateResult) (t' : YamlText),
      updateChartYamlDependency t n v = .ok r → r.updated = true →
      r.newContent = some t' →
      updateChartYamlDependency t' n v = .ok { updated := false }) ∧
    (∀ (t : YamlText) (n v : String) (t' : YamlText),
      (updateHelmfileReleaseVersion t n v).updated = true →
      (updateHelmfileReleaseVersion t n v).newContent = some t' →
      updateHelmfileReleaseVersion t' n v = { updated := false }) := by
  constructor
  · intro t n v r t' h1 hupd hnc
    cases t with
    | none =>
      rw [show updateChartYamlDependency none n v = .ok { updated := false } from rfl]
        at h1
      injection h1 with h1'
      rw [← h1'] at hupd
      simp at hupd
    | some doc =>
      cases doc with
      | null =>
        rw [show updateChartYamlDependency (some Yaml.null) n v = .error () from rfl]
          at h1
        exact Except.noConfusion h1
      | str s =>
        rw [show updateChartYamlDependency (some (Yaml.str s)) n v =
          .ok { updated := false } from rfl] at h1
        injection h1 with h1'
        rw [← h1'] at hupd
        simp at hupd
      | num s =>
        rw [show updateChartYamlDependency (some (Yaml.num s)) n v =
          .ok { updated := false } from rfl] at h1
        injection h1 with h1'
        rw [← h1'] at hupd
        simp at hupd
      | list xs =>
        rw [show updateChartYamlDependency (some (Yaml.list xs)) n v =
          .ok { updated := false } from rfl] at h1
        injection h1 with h1'
        rw [← h1'] at hupd
        simp at hupd
      | map kvs =>
        rcases hd : lookupKV kvs "dependencies" with _ | y
        · have hno : ∀ ds, lookupKV kvs "dependencies" ≠ some (.list ds) := by
            intro ds hc
            rw [hd] at hc
            cases hc
          rw [chart_update_nolist n v hno] at h1
          injection h1 with h1'
          rw [← h1'] at hupd
          simp at hupd
        · cases y with
          | list deps =>
            by_cases hnull : Yaml.null ∈ deps
            · rw [chart_update_err n v hd hnull] at h1
              exact Except.noConfusion h1
            · have hnn : ∀ e ∈ deps, e.isNull = false := by
                intro e he
                cases e with
                | null => exact absurd he hnull
                | str s => rfl
                | num s => rfl
                | list xs => rfl
                | map m => rfl
              by_cases hany : deps.any (relMatches n v) = true
              · rw [chart_update_pos n v hd hnn hany] at h1
                injection h1 with h1'
                rw [← h1'] at hnc
                simp only at hnc
                injection hnc with hnc'
                rw [← hnc']
                exact chart_update_neg n v (lookupKV_setKV_self kvs "dependencies" _)
                  (specUpdateList_no_null hnn) (specUpdateList_any_false n v deps)
              · have hany' : deps.any (relMatches n v) = false := by
                  revert hany
                  cases deps.any (relMatches n v) <;> simp
                rw [chart_update_neg n v hd hnn hany'] at h1
                injection h1 with h1'
                rw [← h1'] at hupd
                simp at hupd
          | null =>
            have hno : ∀ ds, lookupKV kvs "dependencies" ≠ some (.list ds) := by
              intro ds hc
              rw [hd] at hc
              simp at hc
            rw [chart_update_nolist n v hno] at h1
            injection h1 with h1'
            rw [← h1'] at hupd
            simp at hupd
          | str s =>
            have hno : ∀ ds, lookupKV kvs "dependencies" ≠ some (.list ds) := by
              intro ds hc
              rw [hd] at hc
              simp at hc
            rw [chart_update_nolist n v hno] at h1
            injection h1 with h1'
            rw [← h1'] at hupd
            simp at hupd
          | num s =>
            have hno : ∀ ds, lookupKV kvs "dependencies" ≠ some (.list ds) := by
              intro ds hc
              rw [hd] at hc
              simp at hc
            rw [chart_update_nolist n v hno] at h1
            injection h1 with h1'
            rw [← h1'] at hupd
            simp at hupd
          | map m =>
            have hno : ∀ ds, lookupKV kvs "dependencies" ≠ some (.list ds) := by
              intro ds hc
              rw [hd] at hc
              simp at hc
            rw [chart_update_nolist n v hno] at h1
            injection h1 with h1'
            rw [← h1'] at hupd
            simp at hupd
  · intro t n v t' hupd hnc
    cases t with
    | none => simp [updateHelmfileReleaseVersion, yamlParse] at hupd
    | some doc =>
      cases doc with
      | null => simp [updateHelmfileReleaseVersion, yamlParse] at hupd
      | str s => simp [updateHelmfileReleaseVersion, yamlParse] at hupd
      | num s => simp [updateHelmfileReleaseVersion, yamlParse] at hupd
      | list xs => simp [updateHelmfileReleaseVersion, yamlParse] at hupd
      | map kvs =>
        rcases hr : lookupKV kvs "releases" with _ | y
        · have hno : ∀ rs, lookupKV kvs "releases" ≠ some (.list rs) := by
            intro rs hc
            rw [hr] at hc
            cases hc
          rw [helm_update_nolist n v hno] at hupd
          simp at hupd
        · cases y with
          | list rels =>
            by_cases hany : rels.any (relMatches n v) = true
            · rw [helm_update_pos n v hr hany] at hupd hnc
              simp only at hnc
              injection hnc with hnc'
              rw [← hnc']
              exact helm_update_neg n v (lookupKV_setKV_self kvs "releases" _)
                (specUpdateList_any_false n v rels)
            · have hany' : rels.any (relMatches n v) = false := by
                revert hany
                cases rels.any (relMatches n v) <;> simp
              rw [helm_update_neg n v hr hany'] at hupd
              simp at hupd
          | null =>
            have hno : ∀ rs, lookupKV kvs "releases" ≠ some (.list rs) := by
              intro rs hc
              rw [hr] at hc
              simp at hc
            rw [helm_update_nolist n v hno] at hupd
            simp at hupd
          | str s =>
            have hno : ∀ rs, lookupKV kvs "releases" ≠ some (.list rs) := by
              intro rs hc
              rw [hr] at hc
              simp at hc
            rw [helm_update_nolist n v hno] at hupd
            simp at hupd
          | num s =>
            have hno : ∀ rs, lookupKV kvs "releases" ≠ some (.list rs) := by
              intro rs hc
              rw [hr] at hc
              simp at hc
            rw [helm_update_nolist n v hno] at hupd
            simp at hupd
          | map m =>
            have hno : ∀ rs, lookupKV kvs "releases" ≠ some (.list rs) := by
              intro rs hc
              rw [hr] at hc
              simp at hc
            rw [helm_update_nolist n v hno] at hupd
            simp at hupd

/-- C6 witness: re-applying the chart patcher to the scenario-A output
content reports no update. -/
theorem c6_witness :
    updateChartYamlDependency (some chartDocA') "db" "1.1.0" =
      .ok { updated := false } :=
  c6_idempotent.1 (some chartDocA) "db" "1.1.0"
    { updated := true, oldVersion := some "1.0.0", newVersion := some "1.1.0",
      newContent := some (some chartDocA') }
    (some chartDocA') rfl rfl rfl

theorem spec_c10_core (n v : String) (es : List Yaml) :
    (specUpdateList n v es).length = es.length ∧
    (∀ (i : Nat) (h : i < es.length) (h' : i < (specUpdateList n v es).length),
      entryOldVersion (es.get ⟨i, h⟩) = none →
      (specUpdateList n v es).get ⟨i, h'⟩ = es.get ⟨i, h⟩) ∧
    (∀ (i : Nat) (h : i < es.length) (h' : i < (specUpdateList n v es).length),
      (specUpdateList n v es).get ⟨i, h'⟩ ≠ es.get ⟨i, h⟩ →
      ∃ kvs n0 v0, es.get ⟨i, h⟩ = .map kvs ∧
        lookupKV kvs "name" = some (.str n0) ∧
        lookupKV kvs "version" = some (.str v0)) ∧
    es.any (relMatches n v) =
      ((es.filter fun e => (entryOldVersion e).isSome).any (relMatches n v)) ∧
    specLastOldVersion n v es =
      specLastOldVersion n v (es.filter fun e => (entryOldVersion e).isSome) := by
  refine ⟨specUpdateList_length n v es, ?_, ?_, ?_, ?_⟩
  · intro i h h' hnone
    rw [specUpdateList_get n v es i h h']
    rw [entryOldVersion_none_not_relMatches hnone, cond_false]
  · intro i h h' hne
    rw [specUpdateList_get n v es i h h'] at hne
    cases hm : relMatches n v (es.get ⟨i, h⟩)
    · rw [hm, cond_false] at hne
      exact absurd rfl hne
    · obtain ⟨kvs, n0, v0, hkv, hn0, hv0⟩ := relMatches_shape hm
      exact ⟨kvs, n0, v0, hkv, hn0, hv0⟩
  · exact (any_filter_of_imp (relMatches n v) (fun e => (entryOldVersion e).isSome) es
      (fun e he => relMatches_version_isSome he)).symm
  · unfold specLastOldVersion
    rw [filterMap_filter_of_none _ _ es]
    intro e he
    rw [show entryOldVersion e = none by
      revert he
      cases hh : entryOldVersion e <;> simp]
    rw [entryOldVersion_none_not_relMatches (n := n) (v := v) (by
      revert he
      cases hh : entryOldVersion e <;> simp [hh]), cond_false]

/-- C10: in both patch loops, an entry whose `version` is not a string (a
bare number, absent, or a non-mapping entry) is left unchanged at its
position, never mutated, and contributes nothing to the `updated` flag or
`oldVersion` (both are computed from the string-versioned entries alone);
any entry that does change is a mapping with string `name` and `version`. -/
theorem c10_non_string_version_untouched :
    (∀ (n v : String) (es es' : List Yaml) (upd : Bool) (old : Option String),
      updateEntries es n v = .ok (es', upd, old) →
      es'.length = es.length ∧
      (∀ (i : Nat) (h : i < es.length) (h' : i < es'.length),
        entryOldVersion (es.get ⟨i, h⟩) = none → es'.get ⟨i, h'⟩ = es.get ⟨i, h⟩) ∧
      (∀ (i : Nat) (h : i < es.length) (h' : i < es'.length),
        es'.get ⟨i, h'⟩ ≠ es.get ⟨i, h⟩ →
        ∃ kvs n0 v0, es.get ⟨i, h⟩ = .map kvs ∧
          lookupKV kvs "name" = some (.str n0) ∧
          lookupKV kvs "version" = some (.str v0)) ∧
      upd = ((es.filter fun e => (entryOldVersion e).isSome).any (relMatches n v)) ∧
      old = specLastOldVersion n v (es.filter fun e => (entryOldVersion e).isSome)) ∧
    (∀ (n v : String) (es es' : List Yaml) (upd : Bool) (old : Option String),
      updateReleases es n v = (es', upd, old) →
      es'.length = es.length ∧
      (∀ (i : Nat) (h : i < es.length) (h' : i < es'.length),
        entryOldVersion (es.get ⟨i, h⟩) = none → es'.get ⟨i, h'⟩ = es.get ⟨i, h⟩) ∧
      (∀ (i : Nat) (h : i < es.length) (h' : i < es'.length),
        es'.get ⟨i, h'⟩ ≠ es.get ⟨i, h⟩ →
        ∃ kvs n0 v0, es.get ⟨i, h⟩ = .map kvs ∧
          lookupKV kvs "name" = some (.str n0) ∧
          lookupKV kvs "version" = some (.str v0)) ∧
      upd = ((es.filter fun e => (entryOldVersion e).isSome).any (relMatches n v)) ∧
      old = specLastOldVersion n v (es.filter fun e => (entryOldVersion e).isSome)) := by
  constructor
  · intro n v es es' upd old h
    have hnn : ∀ e ∈ es, e.isNull = false := by
      by_cases hmem : Yaml.null ∈ es
      · rw [updateEntries_error n v es hmem] at h
        exact absurd h (by simp)
      · intro e he
        cases e with
        | null => exact absurd he hmem
        | str s => rfl
        | num s => rfl
        | list xs => rfl
        | map m => rfl
    rw [updateEntries_ok n v es hnn] at h
    injection h with h'
    injection h' with h1 h23
    injection h23 with h2 h3
    subst h1
    subst h2
    subst h3
    obtain ⟨c1, c2, c3, c4, c5⟩ := spec_c10_core n v es
    exact ⟨c1, c2, c3, c4, c5⟩
  · intro n v es es' upd old h
    rw [updateReleases_eq n v es] at h
    injection h with h1 h23
    injection h23 with h2 h3
    subst h1
    subst h2
    subst h3
    obtain ⟨c1, c2, c3, c4, c5⟩ := spec_c10_core n v es
    exact ⟨c1, c2, c3, c4, c5⟩

/-- C10 witness: a helmfile release list `[{name: db, version: 1.0 (number)},
{name: db, version: "1.0.0"}]`: the numeric-versioned entry stays unchanged
and the flag and old version come from the string-versioned entry alone. -/
theorem c10_witness :
    ([Yaml.map [("name", .str "db"), ("version", .num "1.0")],
      Yaml.map [("name", .str "db"), ("version", .str "1.1.0")]].get
        ⟨0, by decide⟩ =
      [Yaml.map [("name", .str "db"), ("version", .num "1.0")],
       Yaml.map [("name", .str "db"), ("version", .str "1.0.0")]].get
        ⟨0, by decide⟩) ∧
    true = (([Yaml.map [("name", .str "db"), ("version", .num "1.0")],
      Yaml.map [("name", .str "db"), ("version", .str "1.0.0")]].filter
        fun e => (entryOldVersion e).isSome).any (relMatches "db" "1.1.0")) ∧
    some "1.0.0" = specLastOldVersion "db" "1.1.0"
      ([Yaml.map [("name", .str "db"), ("version", .num "1.0")],
        Yaml.map [("name", .str "db"), ("version", .str "1.0.0")]].filter
          fun e => (entryOldVersion e).isSome) := by
  have T := c10_non_string_version_untouched.2 "db" "1.1.0"
    [Yaml.map [("name", .str "db"), ("version", .num "1.0")],
     Yaml.map [("name", .str "db"), ("version", .str "1.0.0")]]
    [Yaml.map [("name", .str "db"), ("version", .num "1.0")],
     Yaml.map [("name", .str "db"), ("version", .str "1.1.0")]]
    true (some "1.0.0") rfl
  exact ⟨T.2.1 0 (by decide) (by decide) rfl, T.2.2.2.1, T.2.2.2.2⟩
